import Mathlib

/-!
Shallow embedding of `src/housing.py` (class `FeatureExtracter`), a pandas
feature-engineering pipeline for a housing-price dataset, together with
proofs of the specification claims about it.

A pandas `DataFrame` is modelled column-oriented: a list of row identifiers
and a list of named, dtyped columns whose cells are `Option Value`
(`none` plays the role of `NaN`).  Fallible pandas operations (column
lookup raising `KeyError`, date parsing raising, the final `ValueError`
of `_validate_no_nans`) are modelled with `Except PipeError`.
-/

namespace Housing

/-- A scalar cell value: integers, strings, or booleans (the three kinds the
pipeline manipulates). -/
inductive Value where
  | int : Int → Value
  | str : String → Value
  | bool : Bool → Value
deriving DecidableEq, Repr

/-- Constructor tag, used to order values of different kinds (Python would
raise on a mixed comparison; columns here are homogeneous in practice). -/
def Value.tag : Value → Nat
  | .bool _ => 0
  | .int _ => 1
  | .str _ => 2

/-- Strict code-point lexicographic comparison of character lists: the
order Python string comparison (hence `sorted`) uses. -/
def charsLt : List Char → List Char → Bool
  | [], [] => false
  | [], _ :: _ => true
  | _ :: _, [] => false
  | c :: cs, d :: ds =>
      if c.toNat < d.toNat then true
      else if d.toNat < c.toNat then false
      else charsLt cs ds

/-- `a ≤ b` on strings, code-point lexicographically. -/
def strLeb (a b : String) : Bool := !(charsLt b.data a.data)

/-- Boolean total order on values: componentwise on equal constructors,
by constructor tag otherwise.  Models the order used by Python `sorted`. -/
def Value.leb : Value → Value → Bool
  | .bool x, .bool y => !x || y
  | .int x, .int y => decide (x ≤ y)
  | .str x, .str y => strLeb x y
  | a, b => decide (a.tag ≤ b.tag)

/-- The order on values as a proposition. -/
def vle (a b : Value) : Prop := Value.leb a b = true

instance : DecidableRel vle := fun a b => instDecidableEqBool (Value.leb a b) true

/-- Pandas dtype, as far as the pipeline distinguishes them:
`select_dtypes(include="number")` keeps exactly the `number` columns. -/
inductive Dtype where
  | number
  | object
  | category
  | boolean
deriving DecidableEq, Repr

/-- A named column: dtype plus one cell per row (`none` = missing/NaN). -/
structure Col where
  name : String
  dtype : Dtype
  cells : List (Option Value)
deriving DecidableEq, Repr

/-- A dataframe: row identifiers plus columns (each column's `cells` is
indexed in parallel with `rowIds`). -/
structure DataFrame where
  rowIds : List Int
  cols : List Col
deriving DecidableEq, Repr

/-- Errors the pipeline can raise: pandas `KeyError` (missing column label),
a date-parsing failure from `pd.to_datetime`, and the `ValueError` of
`_validate_no_nans`, which carries the offending row ids and column names. -/
inductive PipeError where
  | keyError
  | parseError
  | valueError : List Int → List String → PipeError
deriving DecidableEq, Repr

/-- `X[name]`: the first column with the given label, if any. -/
def DataFrame.getCol (X : DataFrame) (name : String) : Option Col :=
  X.cols.find? (fun c => c.name == name)

/-- Whether a column label is present. -/
def DataFrame.hasCol (X : DataFrame) (name : String) : Bool :=
  X.cols.any (fun c => c.name == name)

/-- `X[name] = series`: replace the column in place if the label exists,
else append a new column at the end (pandas assignment semantics). -/
def DataFrame.setCol (X : DataFrame) (name : String) (dtype : Dtype)
    (cells : List (Option Value)) : DataFrame :=
  if X.hasCol name then
    { X with cols := X.cols.map (fun c => if c.name == name then ⟨name, dtype, cells⟩ else c) }
  else
    { X with cols := X.cols ++ [⟨name, dtype, cells⟩] }

/-- `X.drop(columns=names)`: `KeyError` if any label is absent, else remove
all columns with those labels. -/
def DataFrame.drop (X : DataFrame) (names : List String) : Except PipeError DataFrame :=
  if names.all X.hasCol then
    .ok { X with cols := X.cols.filter (fun c => !(names.contains c.name)) }
  else
    .error .keyError

/-- `X.copy()`: a fresh dataframe with the same contents. -/
def DataFrame.copy (X : DataFrame) : DataFrame :=
  ⟨X.rowIds, X.cols.map (fun c => ⟨c.name, c.dtype, c.cells⟩)⟩

/-! ### The configuration constants of `FeatureExtracter` -/

/-- Columns to cast as categories. -/
def cols_cast_category : List String := ["MSSubClass"]

/-- Columns to fillna with the "None" string. -/
def cols_fillna_None_str : List String := [
  "PoolQC", "MiscFeature", "Alley", "Fence", "FireplaceQu", "GarageType",
  "GarageFinish", "GarageQual", "GarageCond", "BsmtExposure", "BsmtFinType2",
  "BsmtFinType1", "BsmtCond", "BsmtQual", "MasVnrType", "Electrical",
  "MSZoning", "Exterior1st", "Exterior2nd", "KitchenQual", "Functional",
  "SaleType"]

/-- Columns to fillna with 0. -/
def cols_fillna_0 : List String := [
  "LotFrontage", "MasVnrArea", "BsmtFinSF1", "BsmtFinSF2", "BsmtUnfSF",
  "TotalBsmtSF", "BsmtFullBath", "BsmtHalfBath", "GarageCars"]

/-- Columns to drop. -/
def cols_drop : List String := [
  "1stFlrSF", "GarageArea", "GarageYrBlt", "TotRmsAbvGrd", "Street", "Utilities"]

/-- Features to binarize: column name with the value considered True
(all others are False). -/
def binarize_features_by_true_value : List (String × String) := [
  ("Condition2", "Norm"), ("RoofMatl", "CompShg"), ("Heating", "GasA")]

/-- Features to binarize: column name with the value considered False
(all others are True). -/
def binarize_features_by_false_value : List (String × Int) := [
  ("LowQualFinSF", 0), ("3SsnPorch", 0), ("PoolArea", 0), ("MiscVal", 0)]

/-! ### The pipeline stages -/

/-- `_cast_types`: reinterpret each listed column as categorical
(`astype("category")` keeps the cells, changes the dtype; reading a missing
label raises `KeyError`). -/
def castTypes (X : DataFrame) : Except PipeError DataFrame :=
  cols_cast_category.foldlM (fun A col =>
    match A.getCol col with
    | some c => .ok (A.setCol col .category c.cells)
    | none => .error .keyError) X

/-- `fillna(v)` on one cell: missing cells become `v`, others are kept. -/
def fillCell (v : Value) : Option Value → Option Value
  | none => some v
  | some w => some w

/-- `X[names] = X[names].fillna(v)`: `KeyError` if a listed label is absent,
else fill the missing cells of the listed columns with `v`. -/
def fillnaCols (X : DataFrame) (names : List String) (v : Value) :
    Except PipeError DataFrame :=
  if names.all X.hasCol then
    .ok { X with cols := X.cols.map (fun c =>
      if names.contains c.name then { c with cells := c.cells.map (fillCell v) } else c) }
  else
    .error .keyError

/-- `_fillna`: fill the string-list columns with `"None"`, then the
zero-list columns with `0`. -/
def fillna (X : DataFrame) : Except PipeError DataFrame := do
  let X ← fillnaCols X cols_fillna_None_str (.str "None")
  fillnaCols X cols_fillna_0 (.int 0)

/-- `_drop_columns`: drop the fixed column list. -/
def dropColumns (X : DataFrame) : Except PipeError DataFrame :=
  X.drop cols_drop

/-- `get_months_after_start_year` from `_transform_date_sold`:
months elapsed since January 2000 (month 1 of year 2000 maps to 1). -/
def get_months_after_start_year (year month : Int) : Int :=
  (year - 2000) * 12 + month

/-- One row of `pd.to_datetime(MoSold + "/" + YrSold, format="%m/%Y")`:
both cells must be present integers, the month in 1..12 and the year inside
the representable pandas `Timestamp` range; otherwise parsing raises. -/
def parseDate (mo yr : Option Value) : Except PipeError (Int × Int) :=
  match mo, yr with
  | some (.int m), some (.int y) =>
      if 1 ≤ m ∧ m ≤ 12 ∧ 1678 ≤ y ∧ y ≤ 2261 then .ok (m, y)
      else .error .parseError
  | _, _ => .error .parseError

/-- Elementwise fallible map (the semantics of applying a fallible pandas
operation down a series): fails as soon as one element fails. -/
def mapE {α β : Type} (f : α → Except PipeError β) : List α → Except PipeError (List β)
  | [] => .ok []
  | a :: l => do
      let b ← f a
      let bs ← mapE f l
      .ok (b :: bs)

/-- `_transform_date_sold`: build the sale date from `MoSold`/`YrSold`,
store `MonthNumSold` (months after January 2000), drop the originals. -/
def transformDateSold (X : DataFrame) : Except PipeError DataFrame :=
  match X.getCol "MoSold", X.getCol "YrSold" with
  | some cm, some cy => do
      let ps ← mapE (fun p => parseDate p.1 p.2) (cm.cells.zip cy.cells)
      let cells := ps.map (fun p => some (Value.int (get_months_after_start_year p.2 p.1)))
      (X.setCol "MonthNumSold" .number cells).drop ["MoSold", "YrSold"]
  | _, _ => .error .keyError

/-- `series == true_val` elementwise: a missing cell compares unequal,
as NaN does in pandas. -/
def trueCells (v : String) (cells : List (Option Value)) : List (Option Value) :=
  cells.map (fun o => some (Value.bool (decide (o = some (Value.str v)))))

/-- `series != false_val` elementwise: a missing cell compares unequal,
hence True, as NaN does in pandas. -/
def falseCells (n : Int) (cells : List (Option Value)) : List (Option Value) :=
  cells.map (fun o => some (Value.bool (!decide (o = some (Value.int n)))))

/-- One iteration of the true-value binarization loop:
`X[f"{col}_is_{true_val}"] = X[col] == true_val`. -/
def binarizeTrueStep (A : DataFrame) (p : String × String) : Except PipeError DataFrame :=
  match A.getCol p.1 with
  | some c => .ok (A.setCol (p.1 ++ "_is_" ++ p.2) .boolean (trueCells p.2 c.cells))
  | none => .error .keyError

/-- One iteration of the false-value binarization loop:
`X[f"{col}_not_{false_val}"] = X[col] != false_val`. -/
def binarizeFalseStep (A : DataFrame) (p : String × Int) : Except PipeError DataFrame :=
  match A.getCol p.1 with
  | some c => .ok (A.setCol (p.1 ++ "_not_" ++ toString p.2) .boolean (falseCells p.2 c.cells))
  | none => .error .keyError

/-- First half of `_binarize_features`: the true-value rule set. -/
def binarizeTrue (X : DataFrame) : Except PipeError DataFrame :=
  binarize_features_by_true_value.foldlM binarizeTrueStep X

/-- Second half of `_binarize_features`: the false-value rule set. -/
def binarizeFalse (X : DataFrame) : Except PipeError DataFrame :=
  binarize_features_by_false_value.foldlM binarizeFalseStep X

/-- The source column names of the two binarization rule sets. -/
def binarizeSourceCols : List String :=
  binarize_features_by_true_value.map Prod.fst
    ++ binarize_features_by_false_value.map Prod.fst

/-- `_binarize_features`: both rule sets, then drop the source columns. -/
def binarizeFeatures (X : DataFrame) : Except PipeError DataFrame := do
  let X ← binarizeTrue X
  let X ← binarizeFalse X
  X.drop binarizeSourceCols

/-- `X.isna().any().any()`: is some cell missing? -/
def DataFrame.hasMissing (X : DataFrame) : Bool :=
  X.cols.any (fun c => c.cells.any Option.isNone)

/-- Whether row index `i` has a missing cell (`X.isna().any(axis=1)` at `i`). -/
def rowIsNa (X : DataFrame) (i : Nat) : Bool :=
  X.cols.any (fun c => c.cells.get? i == some none)

/-- `list(X.index[X.isna().any(axis=1)])`: ids of rows with a missing cell. -/
def nanRowIds (X : DataFrame) : List Int :=
  (X.rowIds.zip (List.range X.rowIds.length)).filterMap
    (fun p => if rowIsNa X p.2 then some p.1 else none)

/-- `list(X.columns[X.isna().any(axis=0)])`: names of columns with a
missing cell. -/
def nanColNames (X : DataFrame) : List String :=
  (X.cols.filter (fun c => c.cells.any Option.isNone)).map Col.name

/-- `_validate_no_nans`: raise `ValueError` naming the affected row ids and
column names when any cell is missing. -/
def validateNoNans (X : DataFrame) : Except PipeError Unit :=
  if X.hasMissing then .error (.valueError (nanRowIds X) (nanColNames X))
  else .ok ()

/-- The five table-to-table stages of `transform`, in source order. -/
def applyStages (X : DataFrame) : Except PipeError DataFrame := do
  let X ← castTypes X
  let X ← fillna X
  let X ← dropColumns X
  let X ← transformDateSold X
  binarizeFeatures X

/-- `transform`: copy the input, run the five stages, validate no NaNs. -/
def transform (X : DataFrame) : Except PipeError DataFrame := do
  let Y ← applyStages X.copy
  validateNoNans Y
  .ok Y

/-- The learned role metadata of a `FeatureExtracter` instance
(`_num_cols`, `_cat_cols`, `_all_categories`). -/
structure ExtState where
  num_cols : List String
  cat_cols : List String
  all_categories : List (List Value)
deriving DecidableEq, Repr

/-- The empty state built by `__init__`. -/
def initState : ExtState := ⟨[], [], []⟩

/-- `sorted(list(series.unique()))`: the distinct present values, sorted. -/
def sortedUnique (cells : List (Option Value)) : List Value :=
  List.insertionSort vle (cells.filterMap id).dedup

/-- `fit_transform`: transform, then record numeric / categorical column
names (`select_dtypes`) and the sorted category vocabularies. -/
def fit_transform (s : ExtState) (X : DataFrame) :
    Except PipeError (ExtState × DataFrame) := do
  let Y ← transform X
  let num := (Y.cols.filter (fun c => c.dtype == .number)).map Col.name
  let cat := (Y.cols.filter (fun c => !(c.dtype == .number))).map Col.name
  let cats := cat.map (fun col => match Y.getCol col with
    | some c => sortedUnique c.cells
    | none => [])
  .ok (⟨num, cat, cats⟩, Y)

/-- The `transform` method as a state transition: it reads only the class
configuration constants, so the instance state passes through untouched. -/
def transformMethod (s : ExtState) (X : DataFrame) :
    ExtState × Except PipeError DataFrame :=
  (s, transform X)

/-! ### Validity of an input -/

/-- Every column label the pipeline reads. -/
def requiredCols : List String :=
  cols_cast_category ++ cols_fillna_None_str ++ cols_fillna_0 ++ cols_drop
    ++ ["MoSold", "YrSold"] ++ binarizeSourceCols

/-- The `MoSold`/`YrSold` columns exist and every row's pair parses as a
date. -/
def validMoYr (X : DataFrame) : Bool :=
  match X.getCol "MoSold", X.getCol "YrSold" with
  | some cm, some cy =>
      (mapE (fun p => parseDate p.1 p.2) (cm.cells.zip cy.cells)).isOk
  | _, _ => false

/-- A valid input: all required columns present, dates parseable. -/
def validInput (X : DataFrame) : Bool :=
  requiredCols.all X.hasCol && validMoYr X

/-- The column names created by the binarization stage. -/
def binarizeNewCols : List String := [
  "Condition2_is_Norm", "RoofMatl_is_CompShg", "Heating_is_GasA",
  "LowQualFinSF_not_0", "3SsnPorch_not_0", "PoolArea_not_0", "MiscVal_not_0"]

/-- Every cell of every column is present. -/
def allPresent (X : DataFrame) : Bool :=
  X.cols.all (fun c => c.cells.all Option.isSome)

/-- Missing cells, if any, occur only in columns covered by one of the two
fill lists (the well-formed held-out-row scenario of the spec). -/
def missingOnlyInFillCols (X : DataFrame) : Bool :=
  X.cols.all (fun c => cols_fillna_None_str.contains c.name
    || cols_fillna_0.contains c.name || c.cells.all Option.isSome)

instance {ε α : Type} [DecidableEq ε] [DecidableEq α] : DecidableEq (Except ε α)
  | .ok a, .ok b =>
      if h : a = b then isTrue (by rw [h]) else isFalse (by intro e; cases e; exact h rfl)
  | .error e, .error f =>
      if h : e = f then isTrue (by rw [h]) else isFalse (by intro e; cases e; exact h rfl)
  | .ok _, .error _ => isFalse (by intro h; cases h)
  | .error _, .ok _ => isFalse (by intro h; cases h)

/-! ### Concrete sample inputs -/

/-- `k` copies of the same present value. -/
def constCells (k : Nat) (v : Value) : List (Option Value) :=
  List.replicate k (some v)

/-- A concrete frame with every required column, parameterised by the row
ids and by the `MSZoning`, `MoSold` and `YrSold` cell lists. -/
def sampleFrame (ids : List Int) (msz mo yr : List (Option Value)) : DataFrame :=
  ⟨ids,
    [⟨"MSSubClass", .number, constCells ids.length (.int 60)⟩]
    ++ ((cols_fillna_None_str.filter (fun n => !(n == "MSZoning"))).map
         (fun n => ⟨n, .object, constCells ids.length (.str "X")⟩))
    ++ [⟨"MSZoning", .object, msz⟩]
    ++ (cols_fillna_0.map (fun n => ⟨n, .number, constCells ids.length (.int 1)⟩))
    ++ (cols_drop.map (fun n => ⟨n, .object, constCells ids.length (.str "D")⟩))
    ++ [⟨"MoSold", .number, mo⟩, ⟨"YrSold", .number, yr⟩]
    ++ (binarize_features_by_true_value.map
         (fun p => ⟨p.1, .object, constCells ids.length (.str p.2)⟩))
    ++ (binarize_features_by_false_value.map
         (fun p => ⟨p.1, .number, constCells ids.length (.int p.2)⟩))⟩

/-- A one-row valid input (sold May 2008). -/
def Xc : DataFrame := sampleFrame [1] [some (.str "A")] [some (.int 5)] [some (.int 2008)]

/-- The transformed output on `Xc`. -/
def Yc : DataFrame := (transform Xc).toOption.getD ⟨[], []⟩


/-- The learned state on `Xc`. -/
def s1c : ExtState := ((fit_transform initState Xc).toOption.getD (initState, ⟨[], []⟩)).1

/-- The `MoSold` column of `Xc`. -/
def cmc : Col := ⟨"MoSold", .number, [some (.int 5)]⟩

/-- The `YrSold` column of `Xc`. -/
def cyc : Col := ⟨"YrSold", .number, [some (.int 2008)]⟩

/-- The binarization-stage output on `Xc`. -/
def Zb : DataFrame := (binarizeFeatures Xc).toOption.getD ⟨[], []⟩

/-- A one-row input with a missing `MSZoning` cell (a fill column). -/
def Xc6 : DataFrame := sampleFrame [1] [none] [some (.int 5)] [some (.int 2008)]

/-- The fill-stage output on `Xc6`. -/
def Yc6 : DataFrame := (fillna Xc6).toOption.getD ⟨[], []⟩

/-- `Xc` extended with an extra column that carries one of the generated
binarization column names but is itself named in no configuration list. -/
def Xc7 : DataFrame :=
  ⟨[1], Xc.cols ++ [⟨"Condition2_is_Norm", .number, [some (.int 5)]⟩]⟩

/-- The transformed output on `Xc7`. -/
def Yc7 : DataFrame := (transform Xc7).toOption.getD ⟨[], []⟩

/-- A two-row training input whose `MSZoning` column takes values "A","B". -/
def Xtr9 : DataFrame := sampleFrame [1, 2] [some (.str "A"), some (.str "B")]
  [some (.int 5), some (.int 6)] [some (.int 2008), some (.int 2008)]

/-- The state learned from `Xtr9`. -/
def s19 : ExtState := ((fit_transform initState Xtr9).toOption.getD (initState, ⟨[], []⟩)).1

/-- The transformed training table of `Xtr9`. -/
def Ytr9 : DataFrame := ((fit_transform initState Xtr9).toOption.getD (initState, ⟨[], []⟩)).2

/-- A one-row held-out input whose `MSZoning` value "C" was never seen at
fit time. -/
def Xte9 : DataFrame := sampleFrame [3] [some (.str "C")] [some (.int 7)] [some (.int 2009)]

/-- The `MSZoning` column of `Xte9`. -/
def c09 : Col := ⟨"MSZoning", .object, [some (.str "C")]⟩

/-! ### Basic lemmas about the frame operations -/

theorem DataFrame.copy_eq (X : DataFrame) : X.copy = X := by
  cases X with
  | mk ids cols =>
    unfold DataFrame.copy
    simp only [DataFrame.mk.injEq, true_and]
    induction cols with
    | nil => rfl
    | cons c l ih => cases c; simpa using ih

theorem hasCol_iff (X : DataFrame) (n : String) :
    X.hasCol n = true ↔ (X.getCol n).isSome = true := by
  unfold DataFrame.hasCol DataFrame.getCol
  rw [List.any_eq_true, List.find?_isSome]

theorem hasCol_eq_isSome (X : DataFrame) (n : String) :
    X.hasCol n = (X.getCol n).isSome := by
  rw [Bool.eq_iff_iff]; exact hasCol_iff X n

theorem getCol_of_hasCol {X : DataFrame} {n : String} (h : X.hasCol n = true) :
    ∃ c, X.getCol n = some c :=
  Option.isSome_iff_exists.mp ((hasCol_iff X n).mp h)

theorem getCol_name {X : DataFrame} {n : String} {c : Col}
    (h : X.getCol n = some c) : c.name = n := by
  unfold DataFrame.getCol at h
  have h2 := List.find?_some h
  simpa using h2

theorem getCol_eq_none {X : DataFrame} {n : String} (h : X.hasCol n = false) :
    X.getCol n = none := by
  cases hg : X.getCol n with
  | none => rfl
  | some c =>
    have ht : X.hasCol n = true := (hasCol_iff X n).mpr (by simp [hg])
    rw [h] at ht; cases ht

theorem find?_update_other (l : List Col) (n m : String) (r : Col)
    (hr : r.name = n) (hnm : ¬ m = n) :
    ((l.map fun c => if c.name == n then r else c).find? fun c => c.name == m)
      = l.find? (fun c => c.name == m) := by
  induction l with
  | nil => rfl
  | cons c l ih =>
    simp only [List.map_cons]
    by_cases h : c.name = n
    · have h1 : (if (c.name == n) = true then r else c) = r := by simp [h]
      rw [h1]
      have h2 : (r.name == m) = false := by
        simp only [beq_eq_false_iff_ne, ne_eq, hr]
        exact fun e => hnm e.symm
      have h3 : (c.name == m) = false := by
        simp only [beq_eq_false_iff_ne, ne_eq, h]
        exact fun e => hnm e.symm
      rw [List.find?_cons_of_neg _ (by simp [h2]), List.find?_cons_of_neg _ (by simp [h3])]
      exact ih
    · have h1 : (if (c.name == n) = true then r else c) = c := by simp [h]
      rw [h1]
      by_cases hm : c.name = m
      · rw [List.find?_cons_of_pos _ (by simp [hm]), List.find?_cons_of_pos _ (by simp [hm])]
      · rw [List.find?_cons_of_neg _ (by simp [hm]), List.find?_cons_of_neg _ (by simp [hm])]
        exact ih

theorem find?_update_self (l : List Col) (n : String) (r : Col) (hr : r.name = n) :
    ((l.map fun c => if c.name == n then r else c).find? fun c => c.name == n)
      = if (l.any fun c => c.name == n) then some r else none := by
  induction l with
  | nil => rfl
  | cons c l ih =>
    simp only [List.map_cons, List.any_cons]
    by_cases h : c.name = n
    · have h1 : (if (c.name == n) = true then r else c) = r := by simp [h]
      rw [h1, List.find?_cons_of_pos _ (by simp [hr])]
      simp [h]
    · have h1 : (if (c.name == n) = true then r else c) = c := by simp [h]
      rw [h1, List.find?_cons_of_neg _ (by simp [h]), ih]
      simp [h]

theorem map_name_update (l : List Col) (n : String) (r : Col) (hr : r.name = n) :
    (l.map fun c => if c.name == n then r else c).map Col.name = l.map Col.name := by
  induction l with
  | nil => rfl
  | cons c l ih =>
    simp only [List.map_cons]
    by_cases h : c.name = n
    · have h1 : (if (c.name == n) = true then r else c) = r := by simp [h]
      rw [h1]
      simp only [List.map_cons, ih, hr, h]
    · have h1 : (if (c.name == n) = true then r else c) = c := by simp [h]
      rw [h1]
      simp only [List.map_cons, ih]

theorem find?_append_single (l : List Col) (r : Col) (p : Col → Bool)
    (h : p r = false) : ((l ++ [r]).find? p) = l.find? p := by
  induction l with
  | nil => simp [List.find?, h]
  | cons c l ih =>
    by_cases hc : p c
    · rw [List.cons_append, List.find?_cons_of_pos _ hc, List.find?_cons_of_pos _ hc]
    · rw [List.cons_append, List.find?_cons_of_neg _ hc, List.find?_cons_of_neg _ hc]
      exact ih

theorem find?_append_of_none (l l' : List Col) (p : Col → Bool)
    (h : l.find? p = none) : ((l ++ l').find? p) = l'.find? p := by
  induction l with
  | nil => rfl
  | cons c l ih =>
    by_cases hc : p c
    · rw [List.find?_cons_of_pos _ hc] at h; cases h
    · rw [List.find?_cons_of_neg _ hc] at h
      rw [List.cons_append, List.find?_cons_of_neg _ hc]
      exact ih h

theorem setCol_rowIds (X : DataFrame) (n : String) (d : Dtype)
    (cs : List (Option Value)) : (X.setCol n d cs).rowIds = X.rowIds := by
  unfold DataFrame.setCol; split <;> rfl

theorem setCol_getCol_self (X : DataFrame) (n : String) (d : Dtype)
    (cs : List (Option Value)) :
    (X.setCol n d cs).getCol n = some ⟨n, d, cs⟩ := by
  unfold DataFrame.setCol DataFrame.getCol
  split
  · next h =>
    dsimp only
    rw [find?_update_self X.cols n ⟨n, d, cs⟩ rfl]
    unfold DataFrame.hasCol at h
    rw [h]; rfl
  · next h =>
    dsimp only
    have hn : X.cols.find? (fun c => c.name == n) = none := by
      have := @getCol_eq_none X n (by simpa using h)
      simpa [DataFrame.getCol] using this
    rw [find?_append_of_none _ _ _ hn]
    simp [List.find?]

theorem setCol_getCol_other (X : DataFrame) (n m : String) (d : Dtype)
    (cs : List (Option Value)) (h : ¬ m = n) :
    (X.setCol n d cs).getCol m = X.getCol m := by
  unfold DataFrame.setCol DataFrame.getCol
  split
  · exact find?_update_other _ _ _ _ rfl h
  · exact find?_append_single _ _ _ (by simp; exact fun e => h e.symm)

theorem setCol_hasCol_self (X : DataFrame) (n : String) (d : Dtype)
    (cs : List (Option Value)) : (X.setCol n d cs).hasCol n = true := by
  rw [hasCol_eq_isSome, setCol_getCol_self]; rfl

theorem setCol_hasCol_other (X : DataFrame) (n m : String) (d : Dtype)
    (cs : List (Option Value)) (h : ¬ m = n) :
    (X.setCol n d cs).hasCol m = X.hasCol m := by
  rw [hasCol_eq_isSome, hasCol_eq_isSome, setCol_getCol_other _ _ _ _ _ h]

theorem drop_ok_inv {X Y : DataFrame} {names : List String}
    (h : X.drop names = .ok Y) :
    names.all X.hasCol = true
      ∧ Y = ⟨X.rowIds, X.cols.filter fun c => !(names.contains c.name)⟩ := by
  unfold DataFrame.drop at h
  split at h
  · next hall => exact ⟨hall, by cases h; rfl⟩
  · cases h

theorem drop_ok_of_all {X : DataFrame} {names : List String}
    (h : names.all X.hasCol = true) :
    X.drop names = .ok ⟨X.rowIds, X.cols.filter fun c => !(names.contains c.name)⟩ := by
  unfold DataFrame.drop; rw [if_pos h]

theorem find?_filter_other (l : List Col) (q : Col → Bool) (m : String)
    (hq : ∀ c : Col, c.name = m → q c = true) :
    ((l.filter q).find? fun c => c.name == m) = l.find? (fun c => c.name == m) := by
  induction l with
  | nil => rfl
  | cons c l ih =>
    by_cases hqc : q c
    · rw [List.filter_cons_of_pos hqc]
      by_cases hm : c.name = m
      · rw [List.find?_cons_of_pos _ (by simp [hm]), List.find?_cons_of_pos _ (by simp [hm])]
      · rw [List.find?_cons_of_neg _ (by simp [hm]), List.find?_cons_of_neg _ (by simp [hm])]
        exact ih
    · rw [List.filter_cons_of_neg hqc]
      have hm : ¬ c.name = m := fun e => hqc (hq c e)
      rw [List.find?_cons_of_neg _ (by simp [hm])]
      exact ih

theorem drop_rowIds {X Y : DataFrame} {names : List String}
    (h : X.drop names = .ok Y) : Y.rowIds = X.rowIds := by
  obtain ⟨-, rfl⟩ := drop_ok_inv h; rfl

theorem drop_getCol_other {X Y : DataFrame} {names : List String} {m : String}
    (h : X.drop names = .ok Y) (hm : names.contains m = false) :
    Y.getCol m = X.getCol m := by
  obtain ⟨-, rfl⟩ := drop_ok_inv h
  unfold DataFrame.getCol
  have hm' : m ∉ names := by simpa using hm
  exact find?_filter_other _ _ _ (fun c hc => by simp [hc, hm'])

theorem any_name_filter_not_mem (l : List Col) (names : List String) (m : String) :
    ((l.filter fun c => !(names.contains c.name)).any fun c => c.name == m)
      = ((l.any fun c => c.name == m) && !(names.contains m)) := by
  induction l with
  | nil => simp
  | cons c l ih =>
    by_cases hc : names.contains c.name
    · rw [List.filter_cons_of_neg (by simpa using hc)]
      rw [ih, List.any_cons]
      by_cases hm : c.name = m
      · subst hm; rw [hc]; simp
      · have hb : (c.name == m) = false := by simp [hm]
        rw [hb]; simp
    · rw [List.filter_cons_of_pos (by simpa using hc), List.any_cons, List.any_cons, ih]
      by_cases hm : c.name = m
      · subst hm
        have hb : names.contains c.name = false := by simpa using hc
        rw [hb]; simp
      · have hb : (c.name == m) = false := by simp [hm]
        rw [hb]; simp

theorem drop_hasCol {X Y : DataFrame} {names : List String}
    (h : X.drop names = .ok Y) (m : String) :
    Y.hasCol m = (X.hasCol m && !(names.contains m)) := by
  obtain ⟨-, rfl⟩ := drop_ok_inv h
  unfold DataFrame.hasCol
  exact any_name_filter_not_mem _ _ _

theorem except_bind_ok {α β : Type} {x : Except PipeError α}
    {f : α → Except PipeError β} {b : β}
    (h : x >>= f = .ok b) : ∃ a, x = .ok a ∧ f a = .ok b := by
  cases x with
  | ok a => exact ⟨a, rfl, h⟩
  | error e => simp [Bind.bind, Except.bind] at h

theorem except_isOk_iff {α : Type} {x : Except PipeError α} :
    x.isOk = true ↔ ∃ a, x = .ok a := by
  cases x <;> simp [Except.isOk, Except.toBool]

/-! ### Lemmas about `mapE` -/

theorem mapE_ok_length {α β : Type} {f : α → Except PipeError β} :
    ∀ {l : List α} {ys : List β}, mapE f l = .ok ys → ys.length = l.length := by
  intro l
  induction l with
  | nil => intro ys h; cases h; rfl
  | cons a l ih =>
    intro ys h
    unfold mapE at h
    obtain ⟨b, hb, h⟩ := except_bind_ok h
    obtain ⟨bs, hbs, h⟩ := except_bind_ok h
    cases h
    simp [ih hbs]

theorem mapE_ok_get? {α β : Type} {f : α → Except PipeError β} :
    ∀ {l : List α} {ys : List β}, mapE f l = .ok ys →
      ∀ {i : Nat} {a : α}, l.get? i = some a →
        ∃ b, f a = .ok b ∧ ys.get? i = some b := by
  intro l
  induction l with
  | nil => intro ys _ i a ha; cases ha
  | cons x l ih =>
    intro ys h i a ha
    unfold mapE at h
    obtain ⟨b, hb, h⟩ := except_bind_ok h
    obtain ⟨bs, hbs, h⟩ := except_bind_ok h
    cases h
    cases i with
    | zero => cases ha; exact ⟨b, hb, rfl⟩
    | succ i => exact ih hbs ha

/-! ### Frame updates that map columns name-preservingly -/

theorem find?_map_name_preserving (l : List Col) (f : Col → Col) (m : String)
    (hf : ∀ c, (f c).name = c.name) :
    ((l.map f).find? fun c => c.name == m) = (l.find? (fun c => c.name == m)).map f := by
  induction l with
  | nil => rfl
  | cons c l ih =>
    simp only [List.map_cons]
    by_cases hm : c.name = m
    · rw [List.find?_cons_of_pos _ (by simp [hf, hm]),
        List.find?_cons_of_pos _ (by simp [hm])]
      rfl
    · rw [List.find?_cons_of_neg _ (by simp [hf, hm]),
        List.find?_cons_of_neg _ (by simp [hm])]
      exact ih

/-! ### Stage lemmas: `_cast_types` -/

theorem castTypes_eq (X : DataFrame) :
    castTypes X = match X.getCol "MSSubClass" with
      | some c => .ok (X.setCol "MSSubClass" .category c.cells)
      | none => .error .keyError := by
  unfold castTypes cols_cast_category
  cases h : X.getCol "MSSubClass" <;> simp [List.foldlM, h]

theorem castTypes_props {X Y : DataFrame} (h : castTypes X = .ok Y) :
    Y.rowIds = X.rowIds ∧ (∀ m, Y.hasCol m = X.hasCol m) ∧
      (∀ m, ¬ m = "MSSubClass" → Y.getCol m = X.getCol m) := by
  rw [castTypes_eq] at h
  cases hg : X.getCol "MSSubClass" with
  | none => rw [hg] at h; cases h
  | some c =>
    rw [hg] at h
    cases h
    refine ⟨setCol_rowIds _ _ _ _, ?_, ?_⟩
    · intro m
      by_cases hm : m = "MSSubClass"
      · subst hm
        rw [setCol_hasCol_self, hasCol_eq_isSome, hg]
        rfl
      · exact setCol_hasCol_other _ _ _ _ _ hm
    · intro m hm
      exact setCol_getCol_other _ _ _ _ _ hm

theorem castTypes_isOk {X : DataFrame} (h : X.hasCol "MSSubClass" = true) :
    ∃ Y, castTypes X = .ok Y := by
  obtain ⟨c, hc⟩ := getCol_of_hasCol h
  rw [castTypes_eq, hc]
  exact ⟨_, rfl⟩

/-! ### Stage lemmas: `_fillna` -/

theorem fillnaCols_ok_inv {X Y : DataFrame} {names : List String} {v : Value}
    (h : fillnaCols X names v = .ok Y) :
    names.all X.hasCol = true ∧
      Y = ⟨X.rowIds, X.cols.map fun c =>
        if names.contains c.name then { c with cells := c.cells.map (fillCell v) } else c⟩ := by
  unfold fillnaCols at h
  split at h
  · next hall => exact ⟨hall, by cases h; rfl⟩
  · cases h

theorem fillnaCols_ok_of_all {X : DataFrame} {names : List String} {v : Value}
    (h : names.all X.hasCol = true) :
    fillnaCols X names v = .ok ⟨X.rowIds, X.cols.map fun c =>
      if names.contains c.name then { c with cells := c.cells.map (fillCell v) } else c⟩ := by
  unfold fillnaCols; rw [if_pos h]

theorem fillnaCols_getCol {X Y : DataFrame} {names : List String} {v : Value}
    (h : fillnaCols X names v = .ok Y) (m : String) :
    Y.getCol m = (X.getCol m).map fun c =>
      if names.contains c.name then { c with cells := c.cells.map (fillCell v) } else c := by
  obtain ⟨-, rfl⟩ := fillnaCols_ok_inv h
  unfold DataFrame.getCol
  exact find?_map_name_preserving _ _ _ (fun c => by split <;> rfl)

theorem fillnaCols_hasCol {X Y : DataFrame} {names : List String} {v : Value}
    (h : fillnaCols X names v = .ok Y) (m : String) :
    Y.hasCol m = X.hasCol m := by
  rw [hasCol_eq_isSome, hasCol_eq_isSome, fillnaCols_getCol h m]
  cases X.getCol m <;> rfl

theorem fillnaCols_rowIds {X Y : DataFrame} {names : List String} {v : Value}
    (h : fillnaCols X names v = .ok Y) : Y.rowIds = X.rowIds := by
  obtain ⟨-, rfl⟩ := fillnaCols_ok_inv h; rfl

theorem fillna_props {X Y : DataFrame} (h : fillna X = .ok Y) :
    Y.rowIds = X.rowIds ∧ (∀ m, Y.hasCol m = X.hasCol m) ∧
      (∀ m, ¬ m ∈ cols_fillna_None_str → ¬ m ∈ cols_fillna_0 →
        Y.getCol m = X.getCol m) := by
  unfold fillna at h
  obtain ⟨A, hA, h⟩ := except_bind_ok h
  refine ⟨?_, ?_, ?_⟩
  · rw [fillnaCols_rowIds h, fillnaCols_rowIds hA]
  · intro m
    rw [fillnaCols_hasCol h, fillnaCols_hasCol hA]
  · intro m h1 h2
    rw [fillnaCols_getCol h, fillnaCols_getCol hA]
    cases hg : X.getCol m with
    | none => rfl
    | some c =>
      have hname : c.name = m := getCol_name hg
      simp [hname, h1, h2]

theorem fillna_isOk {X : DataFrame}
    (h1 : cols_fillna_None_str.all X.hasCol = true)
    (h2 : cols_fillna_0.all X.hasCol = true) :
    ∃ Y, fillna X = .ok Y := by
  unfold fillna
  rw [fillnaCols_ok_of_all h1]
  have h2' : cols_fillna_0.all
      (DataFrame.hasCol ⟨X.rowIds, X.cols.map fun c =>
        if cols_fillna_None_str.contains c.name then
          { c with cells := c.cells.map (fillCell (.str "None")) } else c⟩) = true := by
    rw [List.all_eq_true] at h2 ⊢
    intro a ha
    have := @fillnaCols_hasCol X _ cols_fillna_None_str (Value.str "None")
      (fillnaCols_ok_of_all h1) a
    rw [this]
    exact h2 a ha
  rw [show ((.ok ⟨X.rowIds, X.cols.map fun c =>
      if cols_fillna_None_str.contains c.name then
        { c with cells := c.cells.map (fillCell (.str "None")) } else c⟩ : Except PipeError DataFrame) >>= fun X =>
      fillnaCols X cols_fillna_0 (.int 0)) = fillnaCols _ cols_fillna_0 (.int 0) from rfl]
  rw [fillnaCols_ok_of_all h2']
  exact ⟨_, rfl⟩

/-! ### Stage lemmas: `_drop_columns` -/

theorem dropColumns_props {X Y : DataFrame} (h : dropColumns X = .ok Y) :
    Y.rowIds = X.rowIds ∧
      (∀ m, Y.hasCol m = (X.hasCol m && !(cols_drop.contains m))) ∧
      (∀ m, ¬ m ∈ cols_drop → Y.getCol m = X.getCol m) := by
  unfold dropColumns at h
  exact ⟨drop_rowIds h, fun m => drop_hasCol h m,
    fun m hm => drop_getCol_other h (by simpa using hm)⟩

theorem dropColumns_isOk {X : DataFrame} (h : cols_drop.all X.hasCol = true) :
    ∃ Y, dropColumns X = .ok Y := by
  unfold dropColumns
  rw [drop_ok_of_all h]
  exact ⟨_, rfl⟩

/-! ### Stage lemmas: `_transform_date_sold` -/

theorem transformDateSold_props {X Y : DataFrame}
    (h : transformDateSold X = .ok Y) :
    ∃ cm cy ps,
      X.getCol "MoSold" = some cm ∧ X.getCol "YrSold" = some cy ∧
      mapE (fun p => parseDate p.1 p.2) (cm.cells.zip cy.cells) = .ok ps ∧
      Y.rowIds = X.rowIds ∧
      Y.getCol "MonthNumSold" = some ⟨"MonthNumSold", .number,
        ps.map fun p => some (Value.int (get_months_after_start_year p.2 p.1))⟩ ∧
      Y.hasCol "MoSold" = false ∧ Y.hasCol "YrSold" = false ∧
      (∀ m, ¬ m = "MoSold" → ¬ m = "YrSold" → ¬ m = "MonthNumSold" →
        Y.getCol m = X.getCol m ∧ Y.hasCol m = X.hasCol m) := by
  unfold transformDateSold at h
  cases hm : X.getCol "MoSold" <;> rw [hm] at h
  case none => cases h
  case some cm =>
  cases hy : X.getCol "YrSold" <;> rw [hy] at h
  case none => cases h
  case some cy =>
  obtain ⟨ps, hps, h⟩ := except_bind_ok h
  refine ⟨cm, cy, ps, rfl, rfl, hps, ?_, ?_, ?_, ?_, ?_⟩
  · rw [drop_rowIds h, setCol_rowIds]
  · rw [drop_getCol_other h (by decide), setCol_getCol_self]
  · rw [drop_hasCol h]; simp [setCol_hasCol_other _ _ _ _ _ (by decide : ¬ "MoSold" = "MonthNumSold")]
  · rw [drop_hasCol h]; simp [setCol_hasCol_other _ _ _ _ _ (by decide : ¬ "YrSold" = "MonthNumSold")]
  · intro m h1 h2 h3
    constructor
    · rw [drop_getCol_other h (by simp [h1, h2]), setCol_getCol_other _ _ _ _ _ h3]
    · have hcm : (["MoSold", "YrSold"] : List String).contains m = false := by simp [h1, h2]
      rw [drop_hasCol h, setCol_hasCol_other _ _ _ _ _ h3, hcm]
      simp

theorem transformDateSold_isOk {X : DataFrame} {cm cy : Col} {ps : List (Int × Int)}
    (hm : X.getCol "MoSold" = some cm) (hy : X.getCol "YrSold" = some cy)
    (hp : mapE (fun p => parseDate p.1 p.2) (cm.cells.zip cy.cells) = .ok ps) :
    ∃ Y, transformDateSold X = .ok Y := by
  unfold transformDateSold
  rw [hm, hy]
  dsimp only
  rw [hp]
  have hmo : X.hasCol "MoSold" = true := by rw [hasCol_eq_isSome, hm]; rfl
  have hyr : X.hasCol "YrSold" = true := by rw [hasCol_eq_isSome, hy]; rfl
  have hall : (["MoSold", "YrSold"] : List String).all
      (X.setCol "MonthNumSold" .number
        (ps.map fun p => some (Value.int (get_months_after_start_year p.2 p.1)))).hasCol = true := by
    simp only [List.all_cons, List.all_nil, Bool.and_true]
    rw [setCol_hasCol_other _ _ _ _ _ (by decide), setCol_hasCol_other _ _ _ _ _ (by decide),
      hmo, hyr]
    rfl
  rw [show ((.ok ps : Except PipeError (List (Int × Int))) >>= fun ps =>
      (X.setCol "MonthNumSold" .number
        (ps.map fun p => some (Value.int (get_months_after_start_year p.2 p.1)))).drop
        ["MoSold", "YrSold"]) = (X.setCol "MonthNumSold" .number
        (ps.map fun p => some (Value.int (get_months_after_start_year p.2 p.1)))).drop
        ["MoSold", "YrSold"] from rfl]
  rw [drop_ok_of_all hall]
  exact ⟨_, rfl⟩

/-! ### Stage lemmas: `_binarize_features` -/

theorem binarizeTrueStep_ok_inv {A B : DataFrame} {p : String × String}
    (h : binarizeTrueStep A p = .ok B) :
    ∃ c, A.getCol p.1 = some c
      ∧ B = A.setCol (p.1 ++ "_is_" ++ p.2) .boolean (trueCells p.2 c.cells) := by
  unfold binarizeTrueStep at h
  cases hg : A.getCol p.1 <;> rw [hg] at h
  · cases h
  · exact ⟨_, rfl, by cases h; rfl⟩

theorem binarizeFalseStep_ok_inv {A B : DataFrame} {p : String × Int}
    (h : binarizeFalseStep A p = .ok B) :
    ∃ c, A.getCol p.1 = some c
      ∧ B = A.setCol (p.1 ++ "_not_" ++ toString p.2) .boolean (falseCells p.2 c.cells) := by
  unfold binarizeFalseStep at h
  cases hg : A.getCol p.1 <;> rw [hg] at h
  · cases h
  · exact ⟨_, rfl, by cases h; rfl⟩

theorem binarizeTrueStep_ok {A : DataFrame} {p : String × String} {c : Col}
    (hc : A.getCol p.1 = some c) :
    binarizeTrueStep A p
      = .ok (A.setCol (p.1 ++ "_is_" ++ p.2) .boolean (trueCells p.2 c.cells)) := by
  unfold binarizeTrueStep; rw [hc]

theorem binarizeFalseStep_ok {A : DataFrame} {p : String × Int} {c : Col}
    (hc : A.getCol p.1 = some c) :
    binarizeFalseStep A p
      = .ok (A.setCol (p.1 ++ "_not_" ++ toString p.2) .boolean (falseCells p.2 c.cells)) := by
  unfold binarizeFalseStep; rw [hc]

theorem binarizeTrue_eq (X : DataFrame) :
    binarizeTrue X =
      binarizeTrueStep X ("Condition2", "Norm") >>= fun A1 =>
      binarizeTrueStep A1 ("RoofMatl", "CompShg") >>= fun A2 =>
      binarizeTrueStep A2 ("Heating", "GasA") := by
  unfold binarizeTrue binarize_features_by_true_value
  simp only [List.foldlM_cons, List.foldlM_nil, bind_pure]

theorem binarizeFalse_eq (X : DataFrame) :
    binarizeFalse X =
      binarizeFalseStep X ("LowQualFinSF", 0) >>= fun A1 =>
      binarizeFalseStep A1 ("3SsnPorch", 0) >>= fun A2 =>
      binarizeFalseStep A2 ("PoolArea", 0) >>= fun A3 =>
      binarizeFalseStep A3 ("MiscVal", 0) := by
  unfold binarizeFalse binarize_features_by_false_value
  simp only [List.foldlM_cons, List.foldlM_nil, bind_pure]

theorem except_ok_bind {α β : Type} (a : α) (f : α → Except PipeError β) :
    (Except.ok a >>= f) = f a := rfl

theorem binarizeTrueStep_isOk {A : DataFrame} {p : String × String}
    (h : A.hasCol p.1 = true) : ∃ B, binarizeTrueStep A p = .ok B := by
  obtain ⟨c, hc⟩ := getCol_of_hasCol h
  exact ⟨_, binarizeTrueStep_ok hc⟩

theorem binarizeFalseStep_isOk {A : DataFrame} {p : String × Int}
    (h : A.hasCol p.1 = true) : ∃ B, binarizeFalseStep A p = .ok B := by
  obtain ⟨c, hc⟩ := getCol_of_hasCol h
  exact ⟨_, binarizeFalseStep_ok hc⟩

theorem binarizeTrueStep_getCol_other {A B : DataFrame} {p : String × String}
    {m : String} (h : binarizeTrueStep A p = .ok B)
    (hm : ¬ m = p.1 ++ "_is_" ++ p.2) : B.getCol m = A.getCol m := by
  obtain ⟨c, -, rfl⟩ := binarizeTrueStep_ok_inv h
  exact setCol_getCol_other _ _ _ _ _ hm

theorem binarizeFalseStep_getCol_other {A B : DataFrame} {p : String × Int}
    {m : String} (h : binarizeFalseStep A p = .ok B)
    (hm : ¬ m = p.1 ++ "_not_" ++ toString p.2) : B.getCol m = A.getCol m := by
  obtain ⟨c, -, rfl⟩ := binarizeFalseStep_ok_inv h
  exact setCol_getCol_other _ _ _ _ _ hm

theorem binarizeTrueStep_hasCol_other {A B : DataFrame} {p : String × String}
    {m : String} (h : binarizeTrueStep A p = .ok B)
    (hm : ¬ m = p.1 ++ "_is_" ++ p.2) : B.hasCol m = A.hasCol m := by
  obtain ⟨c, -, rfl⟩ := binarizeTrueStep_ok_inv h
  exact setCol_hasCol_other _ _ _ _ _ hm

theorem binarizeFalseStep_hasCol_other {A B : DataFrame} {p : String × Int}
    {m : String} (h : binarizeFalseStep A p = .ok B)
    (hm : ¬ m = p.1 ++ "_not_" ++ toString p.2) : B.hasCol m = A.hasCol m := by
  obtain ⟨c, -, rfl⟩ := binarizeFalseStep_ok_inv h
  exact setCol_hasCol_other _ _ _ _ _ hm

theorem binarizeTrueStep_rowIds {A B : DataFrame} {p : String × String}
    (h : binarizeTrueStep A p = .ok B) : B.rowIds = A.rowIds := by
  obtain ⟨c, -, rfl⟩ := binarizeTrueStep_ok_inv h
  exact setCol_rowIds _ _ _ _

theorem binarizeFalseStep_rowIds {A B : DataFrame} {p : String × Int}
    (h : binarizeFalseStep A p = .ok B) : B.rowIds = A.rowIds := by
  obtain ⟨c, -, rfl⟩ := binarizeFalseStep_ok_inv h
  exact setCol_rowIds _ _ _ _

set_option maxHeartbeats 2000000 in
theorem binarizeFeatures_props {X Y : DataFrame} (h : binarizeFeatures X = .ok Y) :
    ∃ c1 c2 c3 d1 d2 d3 d4,
      X.getCol "Condition2" = some c1 ∧ X.getCol "RoofMatl" = some c2 ∧
      X.getCol "Heating" = some c3 ∧ X.getCol "LowQualFinSF" = some d1 ∧
      X.getCol "3SsnPorch" = some d2 ∧ X.getCol "PoolArea" = some d3 ∧
      X.getCol "MiscVal" = some d4 ∧
      Y.rowIds = X.rowIds ∧
      Y.getCol "Condition2_is_Norm"
        = some ⟨"Condition2_is_Norm", .boolean, trueCells "Norm" c1.cells⟩ ∧
      Y.getCol "RoofMatl_is_CompShg"
        = some ⟨"RoofMatl_is_CompShg", .boolean, trueCells "CompShg" c2.cells⟩ ∧
      Y.getCol "Heating_is_GasA"
        = some ⟨"Heating_is_GasA", .boolean, trueCells "GasA" c3.cells⟩ ∧
      Y.getCol "LowQualFinSF_not_0"
        = some ⟨"LowQualFinSF_not_0", .boolean, falseCells 0 d1.cells⟩ ∧
      Y.getCol "3SsnPorch_not_0"
        = some ⟨"3SsnPorch_not_0", .boolean, falseCells 0 d2.cells⟩ ∧
      Y.getCol "PoolArea_not_0"
        = some ⟨"PoolArea_not_0", .boolean, falseCells 0 d3.cells⟩ ∧
      Y.getCol "MiscVal_not_0"
        = some ⟨"MiscVal_not_0", .boolean, falseCells 0 d4.cells⟩ ∧
      (∀ m, m ∈ binarizeSourceCols → Y.hasCol m = false) ∧
      (∀ m, ¬ m ∈ binarizeSourceCols → ¬ m ∈ binarizeNewCols →
        Y.getCol m = X.getCol m ∧ Y.hasCol m = X.hasCol m) := by
  unfold binarizeFeatures at h
  obtain ⟨T, hT, h⟩ := except_bind_ok h
  obtain ⟨F, hF, h⟩ := except_bind_ok h
  rw [binarizeTrue_eq] at hT
  obtain ⟨A1, hA1, hT⟩ := except_bind_ok hT
  obtain ⟨A2, hA2, hT⟩ := except_bind_ok hT
  rw [binarizeFalse_eq] at hF
  obtain ⟨B1, hB1, hF⟩ := except_bind_ok hF
  obtain ⟨B2, hB2, hF⟩ := except_bind_ok hF
  obtain ⟨B3, hB3, hF⟩ := except_bind_ok hF
  obtain ⟨c1, gc1, rfl⟩ := binarizeTrueStep_ok_inv hA1
  obtain ⟨c2, gc2, rfl⟩ := binarizeTrueStep_ok_inv hA2
  obtain ⟨c3, gc3, rfl⟩ := binarizeTrueStep_ok_inv hT
  obtain ⟨d1, gd1, rfl⟩ := binarizeFalseStep_ok_inv hB1
  obtain ⟨d2, gd2, rfl⟩ := binarizeFalseStep_ok_inv hB2
  obtain ⟨d3, gd3, rfl⟩ := binarizeFalseStep_ok_inv hB3
  obtain ⟨d4, gd4, rfl⟩ := binarizeFalseStep_ok_inv hF
  simp only [show ("Condition2" ++ "_is_" ++ "Norm" : String) = "Condition2_is_Norm" from rfl,
    show ("RoofMatl" ++ "_is_" ++ "CompShg" : String) = "RoofMatl_is_CompShg" from rfl,
    show ("Heating" ++ "_is_" ++ "GasA" : String) = "Heating_is_GasA" from rfl,
    show ("LowQualFinSF" ++ "_not_" ++ toString (0 : Int) : String) = "LowQualFinSF_not_0" from rfl,
    show ("3SsnPorch" ++ "_not_" ++ toString (0 : Int) : String) = "3SsnPorch_not_0" from rfl,
    show ("PoolArea" ++ "_not_" ++ toString (0 : Int) : String) = "PoolArea_not_0" from rfl,
    show ("MiscVal" ++ "_not_" ++ toString (0 : Int) : String) = "MiscVal_not_0" from rfl]
    at gc2 gc3 gd1 gd2 gd3 gd4 h
  have gc2' : X.getCol "RoofMatl" = some c2 := by
    rwa [setCol_getCol_other _ "Condition2_is_Norm" "RoofMatl" _ _ (by decide)] at gc2
  have gc3' : X.getCol "Heating" = some c3 := by
    rwa [setCol_getCol_other _ "RoofMatl_is_CompShg" "Heating" _ _ (by decide),
      setCol_getCol_other _ "Condition2_is_Norm" "Heating" _ _ (by decide)] at gc3
  have gd1' : X.getCol "LowQualFinSF" = some d1 := by
    rwa [setCol_getCol_other _ "Heating_is_GasA" "LowQualFinSF" _ _ (by decide),
      setCol_getCol_other _ "RoofMatl_is_CompShg" "LowQualFinSF" _ _ (by decide),
      setCol_getCol_other _ "Condition2_is_Norm" "LowQualFinSF" _ _ (by decide)] at gd1
  have gd2' : X.getCol "3SsnPorch" = some d2 := by
    rwa [setCol_getCol_other _ "LowQualFinSF_not_0" "3SsnPorch" _ _ (by decide),
      setCol_getCol_other _ "Heating_is_GasA" "3SsnPorch" _ _ (by decide),
      setCol_getCol_other _ "RoofMatl_is_CompShg" "3SsnPorch" _ _ (by decide),
      setCol_getCol_other _ "Condition2_is_Norm" "3SsnPorch" _ _ (by decide)] at gd2
  have gd3' : X.getCol "PoolArea" = some d3 := by
    rwa [setCol_getCol_other _ "3SsnPorch_not_0" "PoolArea" _ _ (by decide),
      setCol_getCol_other _ "LowQualFinSF_not_0" "PoolArea" _ _ (by decide),
      setCol_getCol_other _ "Heating_is_GasA" "PoolArea" _ _ (by decide),
      setCol_getCol_other _ "RoofMatl_is_CompShg" "PoolArea" _ _ (by decide),
      setCol_getCol_other _ "Condition2_is_Norm" "PoolArea" _ _ (by decide)] at gd3
  have gd4' : X.getCol "MiscVal" = some d4 := by
    rwa [setCol_getCol_other _ "PoolArea_not_0" "MiscVal" _ _ (by decide),
      setCol_getCol_other _ "3SsnPorch_not_0" "MiscVal" _ _ (by decide),
      setCol_getCol_other _ "LowQualFinSF_not_0" "MiscVal" _ _ (by decide),
      setCol_getCol_other _ "Heating_is_GasA" "MiscVal" _ _ (by decide),
      setCol_getCol_other _ "RoofMatl_is_CompShg" "MiscVal" _ _ (by decide),
      setCol_getCol_other _ "Condition2_is_Norm" "MiscVal" _ _ (by decide)] at gd4
  refine ⟨c1, c2, c3, d1, d2, d3, d4, gc1, gc2', gc3', gd1', gd2', gd3', gd4',
    ?_, ?_, ?_, ?_, ?_, ?_, ?_, ?_, ?_, ?_⟩
  · rw [drop_rowIds h]
    simp only [setCol_rowIds]
  · rw [@drop_getCol_other _ _ _ "Condition2_is_Norm" h (by decide),
      setCol_getCol_other _ "MiscVal_not_0" "Condition2_is_Norm" _ _ (by decide),
      setCol_getCol_other _ "PoolArea_not_0" "Condition2_is_Norm" _ _ (by decide),
      setCol_getCol_other _ "3SsnPorch_not_0" "Condition2_is_Norm" _ _ (by decide),
      setCol_getCol_other _ "LowQualFinSF_not_0" "Condition2_is_Norm" _ _ (by decide),
      setCol_getCol_other _ "Heating_is_GasA" "Condition2_is_Norm" _ _ (by decide),
      setCol_getCol_other _ "RoofMatl_is_CompShg" "Condition2_is_Norm" _ _ (by decide),
      setCol_getCol_self]
  · rw [@drop_getCol_other _ _ _ "RoofMatl_is_CompShg" h (by decide),
      setCol_getCol_other _ "MiscVal_not_0" "RoofMatl_is_CompShg" _ _ (by decide),
      setCol_getCol_other _ "PoolArea_not_0" "RoofMatl_is_CompShg" _ _ (by decide),
      setCol_getCol_other _ "3SsnPorch_not_0" "RoofMatl_is_CompShg" _ _ (by decide),
      setCol_getCol_other _ "LowQualFinSF_not_0" "RoofMatl_is_CompShg" _ _ (by decide),
      setCol_getCol_other _ "Heating_is_GasA" "RoofMatl_is_CompShg" _ _ (by decide),
      setCol_getCol_self]
  · rw [@drop_getCol_other _ _ _ "Heating_is_GasA" h (by decide),
      setCol_getCol_other _ "MiscVal_not_0" "Heating_is_GasA" _ _ (by decide),
      setCol_getCol_other _ "PoolArea_not_0" "Heating_is_GasA" _ _ (by decide),
      setCol_getCol_other _ "3SsnPorch_not_0" "Heating_is_GasA" _ _ (by decide),
      setCol_getCol_other _ "LowQualFinSF_not_0" "Heating_is_GasA" _ _ (by decide),
      setCol_getCol_self]
  · rw [@drop_getCol_other _ _ _ "LowQualFinSF_not_0" h (by decide),
      setCol_getCol_other _ "MiscVal_not_0" "LowQualFinSF_not_0" _ _ (by decide),
      setCol_getCol_other _ "PoolArea_not_0" "LowQualFinSF_not_0" _ _ (by decide),
      setCol_getCol_other _ "3SsnPorch_not_0" "LowQualFinSF_not_0" _ _ (by decide),
      setCol_getCol_self]
  · rw [@drop_getCol_other _ _ _ "3SsnPorch_not_0" h (by decide),
      setCol_getCol_other _ "MiscVal_not_0" "3SsnPorch_not_0" _ _ (by decide),
      setCol_getCol_other _ "PoolArea_not_0" "3SsnPorch_not_0" _ _ (by decide),
      setCol_getCol_self]
  · rw [@drop_getCol_other _ _ _ "PoolArea_not_0" h (by decide),
      setCol_getCol_other _ "MiscVal_not_0" "PoolArea_not_0" _ _ (by decide),
      setCol_getCol_self]
  · rw [@drop_getCol_other _ _ _ "MiscVal_not_0" h (by decide), setCol_getCol_self]
  · intro m hm
    have hc : binarizeSourceCols.contains m = true := by simpa using hm
    rw [drop_hasCol h, hc]
    simp
  · intro m hs hn
    have hs' : binarizeSourceCols.contains m = false := by simpa using hs
    simp only [binarizeNewCols, List.mem_cons, List.not_mem_nil, or_false] at hn
    push_neg at hn
    obtain ⟨e1, e2, e3, e4, e5, e6, e7⟩ := hn
    constructor
    · rw [drop_getCol_other h hs',
        setCol_getCol_other _ _ _ _ _ e7, setCol_getCol_other _ _ _ _ _ e6,
        setCol_getCol_other _ _ _ _ _ e5, setCol_getCol_other _ _ _ _ _ e4,
        setCol_getCol_other _ _ _ _ _ e3, setCol_getCol_other _ _ _ _ _ e2,
        setCol_getCol_other _ _ _ _ _ e1]
    · rw [drop_hasCol h, hs',
        setCol_hasCol_other _ _ _ _ _ e7, setCol_hasCol_other _ _ _ _ _ e6,
        setCol_hasCol_other _ _ _ _ _ e5, setCol_hasCol_other _ _ _ _ _ e4,
        setCol_hasCol_other _ _ _ _ _ e3, setCol_hasCol_other _ _ _ _ _ e2,
        setCol_hasCol_other _ _ _ _ _ e1]
      simp

set_option maxHeartbeats 2000000 in
theorem binarizeFeatures_isOk {X : DataFrame}
    (h : binarizeSourceCols.all X.hasCol = true) :
    ∃ Y, binarizeFeatures X = .ok Y := by
  rw [List.all_eq_true] at h
  have h1 : X.hasCol "Condition2" = true := h "Condition2" (by decide)
  have h2 : X.hasCol "RoofMatl" = true := h "RoofMatl" (by decide)
  have h3 : X.hasCol "Heating" = true := h "Heating" (by decide)
  have h4 : X.hasCol "LowQualFinSF" = true := h "LowQualFinSF" (by decide)
  have h5 : X.hasCol "3SsnPorch" = true := h "3SsnPorch" (by decide)
  have h6 : X.hasCol "PoolArea" = true := h "PoolArea" (by decide)
  have h7 : X.hasCol "MiscVal" = true := h "MiscVal" (by decide)
  obtain ⟨A1, hA1⟩ := @binarizeTrueStep_isOk X ("Condition2", "Norm") h1
  obtain ⟨A2, hA2⟩ := @binarizeTrueStep_isOk A1 ("RoofMatl", "CompShg")
    (by rw [binarizeTrueStep_hasCol_other hA1 (by decide)]; exact h2)
  obtain ⟨A3, hA3⟩ := @binarizeTrueStep_isOk A2 ("Heating", "GasA")
    (by rw [binarizeTrueStep_hasCol_other hA2 (by decide),
      binarizeTrueStep_hasCol_other hA1 (by decide)]; exact h3)
  obtain ⟨B1, hB1⟩ := @binarizeFalseStep_isOk A3 ("LowQualFinSF", 0)
    (by rw [binarizeTrueStep_hasCol_other hA3 (by decide),
      binarizeTrueStep_hasCol_other hA2 (by decide),
      binarizeTrueStep_hasCol_other hA1 (by decide)]; exact h4)
  obtain ⟨B2, hB2⟩ := @binarizeFalseStep_isOk B1 ("3SsnPorch", 0)
    (by rw [binarizeFalseStep_hasCol_other hB1 (by decide),
      binarizeTrueStep_hasCol_other hA3 (by decide),
      binarizeTrueStep_hasCol_other hA2 (by decide),
      binarizeTrueStep_hasCol_other hA1 (by decide)]; exact h5)
  obtain ⟨B3, hB3⟩ := @binarizeFalseStep_isOk B2 ("PoolArea", 0)
    (by rw [binarizeFalseStep_hasCol_other hB2 (by decide),
      binarizeFalseStep_hasCol_other hB1 (by decide),
      binarizeTrueStep_hasCol_other hA3 (by decide),
      binarizeTrueStep_hasCol_other hA2 (by decide),
      binarizeTrueStep_hasCol_other hA1 (by decide)]; exact h6)
  obtain ⟨B4, hB4⟩ := @binarizeFalseStep_isOk B3 ("MiscVal", 0)
    (by rw [binarizeFalseStep_hasCol_other hB3 (by decide),
      binarizeFalseStep_hasCol_other hB2 (by decide),
      binarizeFalseStep_hasCol_other hB1 (by decide),
      binarizeTrueStep_hasCol_other hA3 (by decide),
      binarizeTrueStep_hasCol_other hA2 (by decide),
      binarizeTrueStep_hasCol_other hA1 (by decide)]; exact h7)
  have hpres : ∀ m, X.hasCol m = true →
      ¬ m = "Condition2" ++ "_is_" ++ "Norm" → ¬ m = "RoofMatl" ++ "_is_" ++ "CompShg" →
      ¬ m = "Heating" ++ "_is_" ++ "GasA" →
      ¬ m = "LowQualFinSF" ++ "_not_" ++ toString (0 : Int) →
      ¬ m = "3SsnPorch" ++ "_not_" ++ toString (0 : Int) →
      ¬ m = "PoolArea" ++ "_not_" ++ toString (0 : Int) →
      ¬ m = "MiscVal" ++ "_not_" ++ toString (0 : Int) →
      B4.hasCol m = true := by
    intro m hm e1 e2 e3 e4 e5 e6 e7
    rw [binarizeFalseStep_hasCol_other hB4 e7, binarizeFalseStep_hasCol_other hB3 e6,
      binarizeFalseStep_hasCol_other hB2 e5, binarizeFalseStep_hasCol_other hB1 e4,
      binarizeTrueStep_hasCol_other hA3 e3, binarizeTrueStep_hasCol_other hA2 e2,
      binarizeTrueStep_hasCol_other hA1 e1]
    exact hm
  have hall : binarizeSourceCols.all B4.hasCol = true := by
    rw [List.all_eq_true]
    intro a ha
    simp only [binarizeSourceCols, binarize_features_by_true_value,
      binarize_features_by_false_value, List.map_cons, List.map_nil, List.append_nil,
      List.mem_cons, List.mem_append, List.not_mem_nil, or_false] at ha
    rcases ha with (rfl | rfl | rfl) | (rfl | rfl | rfl | rfl)
    · exact hpres _ h1 (by decide) (by decide) (by decide) (by decide) (by decide)
        (by decide) (by decide)
    · exact hpres _ h2 (by decide) (by decide) (by decide) (by decide) (by decide)
        (by decide) (by decide)
    · exact hpres _ h3 (by decide) (by decide) (by decide) (by decide) (by decide)
        (by decide) (by decide)
    · exact hpres _ h4 (by decide) (by decide) (by decide) (by decide) (by decide)
        (by decide) (by decide)
    · exact hpres _ h5 (by decide) (by decide) (by decide) (by decide) (by decide)
        (by decide) (by decide)
    · exact hpres _ h6 (by decide) (by decide) (by decide) (by decide) (by decide)
        (by decide) (by decide)
    · exact hpres _ h7 (by decide) (by decide) (by decide) (by decide) (by decide)
        (by decide) (by decide)
  have hT : binarizeTrue X = .ok A3 := by
    rw [binarizeTrue_eq, hA1, except_ok_bind, hA2, except_ok_bind]
    exact hA3
  have hF : binarizeFalse A3 = .ok B4 := by
    rw [binarizeFalse_eq, hB1, except_ok_bind, hB2, except_ok_bind, hB3, except_ok_bind]
    exact hB4
  unfold binarizeFeatures
  rw [hT, except_ok_bind, hF, except_ok_bind, drop_ok_of_all hall]
  exact ⟨_, rfl⟩

theorem parseDate_ok_inv {m y : Int} {b : Int × Int}
    (h : parseDate (some (.int m)) (some (.int y)) = .ok b) :
    b = (m, y) := by
  unfold parseDate at h
  dsimp only at h
  by_cases hc : 1 ≤ m ∧ m ≤ 12 ∧ 1678 ≤ y ∧ y ≤ 2261
  · rw [if_pos hc] at h
    cases h
    rfl
  · rw [if_neg hc] at h
    cases h

/-! ### Lemmas about the whole pipeline -/

theorem applyStages_ok_inv {X Z : DataFrame} (h : applyStages X = .ok Z) :
    ∃ X1 X2 X3 X4, castTypes X = .ok X1 ∧ fillna X1 = .ok X2 ∧
      dropColumns X2 = .ok X3 ∧ transformDateSold X3 = .ok X4 ∧
      binarizeFeatures X4 = .ok Z := by
  unfold applyStages at h
  obtain ⟨X1, h1, h⟩ := except_bind_ok h
  obtain ⟨X2, h2, h⟩ := except_bind_ok h
  obtain ⟨X3, h3, h⟩ := except_bind_ok h
  obtain ⟨X4, h4, h⟩ := except_bind_ok h
  exact ⟨X1, X2, X3, X4, h1, h2, h3, h4, h⟩

theorem validateNoNans_ok_iff {X : DataFrame} :
    validateNoNans X = .ok () ↔ X.hasMissing = false := by
  unfold validateNoNans
  cases h : X.hasMissing <;> simp [h]

theorem transform_eq (X : DataFrame) :
    transform X = (applyStages X) >>= fun Z =>
      if Z.hasMissing = true then
        .error (.valueError (nanRowIds Z) (nanColNames Z))
      else .ok Z := by
  unfold transform
  rw [DataFrame.copy_eq]
  cases h : applyStages X with
  | error e => rfl
  | ok Z =>
    rw [except_ok_bind, except_ok_bind]
    unfold validateNoNans
    cases hm : Z.hasMissing <;> rfl

theorem transform_ok_inv {X Y : DataFrame} (h : transform X = .ok Y) :
    applyStages X = .ok Y ∧ Y.hasMissing = false := by
  rw [transform_eq] at h
  obtain ⟨Z, hZ, h⟩ := except_bind_ok h
  cases hm : Z.hasMissing <;> rw [hm] at h
  · have h' : (Except.ok Z : Except PipeError DataFrame) = .ok Y := by simpa using h
    cases h'
    exact ⟨hZ, hm⟩
  · exact absurd h (by simp)

set_option maxHeartbeats 2000000 in
theorem applyStages_isOk {X : DataFrame} (hv : validInput X = true) :
    ∃ Z, applyStages X = .ok Z := by
  unfold validInput at hv
  rw [Bool.and_eq_true] at hv
  obtain ⟨hreq, hmy⟩ := hv
  rw [List.all_eq_true] at hreq
  have hMSS : X.hasCol "MSSubClass" = true := hreq "MSSubClass" (by decide)
  obtain ⟨X1, h1⟩ := castTypes_isOk hMSS
  obtain ⟨-, hc1, gc1⟩ := castTypes_props h1
  have hsubN : ∀ a ∈ cols_fillna_None_str, a ∈ requiredCols := by decide
  have hsub0 : ∀ a ∈ cols_fillna_0, a ∈ requiredCols := by decide
  have hsubD : ∀ a ∈ cols_drop, a ∈ requiredCols := by decide
  obtain ⟨X2, h2⟩ := fillna_isOk
    (by rw [List.all_eq_true]; intro a ha; rw [hc1]; exact hreq a (hsubN a ha))
    (by rw [List.all_eq_true]; intro a ha; rw [hc1]; exact hreq a (hsub0 a ha))
  obtain ⟨-, hc2, gc2⟩ := fillna_props h2
  obtain ⟨X3, h3⟩ := dropColumns_isOk
    (by rw [List.all_eq_true]; intro a ha; rw [hc2, hc1]; exact hreq a (hsubD a ha))
  obtain ⟨-, hc3, gc3⟩ := dropColumns_props h3
  have gmo : X3.getCol "MoSold" = X.getCol "MoSold" := by
    rw [gc3 _ (by decide), gc2 _ (by decide) (by decide), gc1 _ (by decide)]
  have gyr : X3.getCol "YrSold" = X.getCol "YrSold" := by
    rw [gc3 _ (by decide), gc2 _ (by decide) (by decide), gc1 _ (by decide)]
  unfold validMoYr at hmy
  cases hm : X.getCol "MoSold" <;> rw [hm] at hmy
  case none => cases hmy
  case some cm =>
  cases hy : X.getCol "YrSold" <;> rw [hy] at hmy
  case none => cases hmy
  case some cy =>
  obtain ⟨ps, hps⟩ := except_isOk_iff.mp hmy
  obtain ⟨X4, h4⟩ := transformDateSold_isOk (by rw [gmo]; exact hm) (by rw [gyr]; exact hy) hps
  obtain ⟨cm4, cy4, ps4, -, -, -, -, -, hno4, hyr4, g4⟩ := transformDateSold_props h4
  have hsrc : binarizeSourceCols.all X4.hasCol = true := by
    rw [List.all_eq_true]
    intro a ha
    have hne : ¬ a = "MoSold" ∧ ¬ a = "YrSold" ∧ ¬ a = "MonthNumSold"
        ∧ ¬ a ∈ cols_drop ∧ a ∈ requiredCols := by
      revert ha; revert a; decide
    rw [(g4 a hne.1 hne.2.1 hne.2.2.1).2, hc3, hc2, hc1]
    have hd : cols_drop.contains a = false := by
      simpa using hne.2.2.2.1
    rw [hd, hreq a hne.2.2.2.2]
    rfl
  obtain ⟨Z, h5⟩ := binarizeFeatures_isOk hsrc
  refine ⟨Z, ?_⟩
  unfold applyStages
  rw [h1, except_ok_bind, h2, except_ok_bind, h3, except_ok_bind, h4, except_ok_bind]
  exact h5

theorem applyStages_rowIds {X Z : DataFrame} (h : applyStages X = .ok Z) :
    Z.rowIds = X.rowIds := by
  obtain ⟨X1, X2, X3, X4, h1, h2, h3, h4, h5⟩ := applyStages_ok_inv h
  obtain ⟨-, -, -, -, -, -, -, -, -, -, -, -, -, -, r5, -⟩ := binarizeFeatures_props h5
  obtain ⟨-, -, -, -, -, -, r4, -⟩ := transformDateSold_props h4
  rw [r5, r4, (dropColumns_props h3).1, (fillna_props h2).1, (castTypes_props h1).1]

/-! ### Preservation of cell presence through the pipeline -/

theorem all_setCol {P : Col → Bool} {X : DataFrame} {n : String} {d : Dtype}
    {cs : List (Option Value)} (hX : X.cols.all P = true)
    (hnew : P ⟨n, d, cs⟩ = true) : (X.setCol n d cs).cols.all P = true := by
  unfold DataFrame.setCol
  split
  · rw [List.all_eq_true]
    intro c hc
    rw [List.mem_map] at hc
    obtain ⟨c0, hc0, rfl⟩ := hc
    split
    · exact hnew
    · exact List.all_eq_true.mp hX c0 hc0
  · rw [List.all_append]
    rw [hX]
    simpa using hnew

theorem all_filter {P q : Col → Bool} {l : List Col} (h : l.all P = true) :
    (l.filter q).all P = true := by
  rw [List.all_eq_true] at h ⊢
  intro c hc
  exact h c (List.mem_of_mem_filter hc)

theorem hasMissing_eq_false_of_allPresent {X : DataFrame}
    (h : allPresent X = true) : X.hasMissing = false := by
  cases hM : X.hasMissing with
  | false => rfl
  | true =>
    exfalso
    unfold DataFrame.hasMissing at hM
    rw [List.any_eq_true] at hM
    obtain ⟨c, hc, hcany⟩ := hM
    rw [List.any_eq_true] at hcany
    obtain ⟨o, ho, hno⟩ := hcany
    have hs := List.all_eq_true.mp (List.all_eq_true.mp h c hc) o ho
    cases o
    · cases hs
    · cases hno

theorem castTypes_allPresent {X Y : DataFrame} (h : castTypes X = .ok Y)
    (hX : missingOnlyInFillCols X = true) : missingOnlyInFillCols Y = true := by
  rw [castTypes_eq] at h
  cases hg : X.getCol "MSSubClass" <;> rw [hg] at h
  · cases h
  · cases h
    rename_i c
    unfold missingOnlyInFillCols at hX ⊢
    refine all_setCol hX ?_
    have hcmem : c ∈ X.cols := by
      unfold DataFrame.getCol at hg
      exact List.mem_of_find?_eq_some hg
    have hcname : c.name = "MSSubClass" := getCol_name hg
    have := List.all_eq_true.mp hX c hcmem
    rw [hcname] at this
    simpa using this

theorem map_fillCell_allPresent (v : Value) (l : List (Option Value)) :
    (l.map (fillCell v)).all Option.isSome = true := by
  rw [List.all_eq_true]
  intro o ho
  simp only [List.mem_map] at ho
  obtain ⟨o0, -, rfl⟩ := ho
  cases o0 <;> rfl

theorem fill2_allPresent (c0 : Col)
    (h0 : (cols_fillna_None_str.contains c0.name || cols_fillna_0.contains c0.name
            || c0.cells.all Option.isSome) = true) :
    ((fun c : Col => if cols_fillna_0.contains c.name then
        { c with cells := c.cells.map (fillCell (Value.int 0)) } else c)
      ((fun c : Col => if cols_fillna_None_str.contains c.name then
        { c with cells := c.cells.map (fillCell (Value.str "None")) } else c) c0)).cells.all
      Option.isSome = true := by
  dsimp only
  by_cases hN : cols_fillna_None_str.contains c0.name = true
  · rw [if_pos hN]
    by_cases h0' : cols_fillna_0.contains c0.name = true
    · rw [if_pos h0']
      exact map_fillCell_allPresent _ _
    · rw [if_neg h0']
      exact map_fillCell_allPresent _ _
  · rw [if_neg hN]
    by_cases h0' : cols_fillna_0.contains c0.name = true
    · rw [if_pos h0']
      exact map_fillCell_allPresent _ _
    · rw [if_neg h0']
      rw [Bool.or_eq_true, Bool.or_eq_true] at h0
      rcases h0 with (h | h) | h
      · exact absurd h hN
      · exact absurd h h0'
      · exact h

theorem fillna_allPresent {X Y : DataFrame} (h : fillna X = .ok Y)
    (hX : missingOnlyInFillCols X = true) : allPresent Y = true := by
  unfold fillna at h
  obtain ⟨A, hA, h⟩ := except_bind_ok h
  obtain ⟨-, rfl⟩ := fillnaCols_ok_inv hA
  obtain ⟨-, rfl⟩ := fillnaCols_ok_inv h
  unfold missingOnlyInFillCols at hX
  unfold allPresent
  rw [List.all_eq_true] at hX ⊢
  intro c hc
  simp only [List.map_map, List.mem_map, Function.comp] at hc
  obtain ⟨c0, hc0, rfl⟩ := hc
  exact fill2_allPresent c0 (hX c0 hc0)

theorem drop_allPresent {X Y : DataFrame} {names : List String}
    (h : X.drop names = .ok Y) (hX : allPresent X = true) :
    allPresent Y = true := by
  obtain ⟨-, rfl⟩ := drop_ok_inv h
  exact all_filter hX

theorem transformDateSold_allPresent {X Y : DataFrame}
    (h : transformDateSold X = .ok Y) (hX : allPresent X = true) :
    allPresent Y = true := by
  unfold transformDateSold at h
  cases hm : X.getCol "MoSold" <;> rw [hm] at h
  case none => cases h
  case some cm =>
  cases hy : X.getCol "YrSold" <;> rw [hy] at h
  case none => cases h
  case some cy =>
  obtain ⟨ps, hps, h⟩ := except_bind_ok h
  refine drop_allPresent h (all_setCol hX ?_)
  show (ps.map fun p => some (Value.int (get_months_after_start_year p.2 p.1))).all
    Option.isSome = true
  rw [List.all_eq_true]
  intro o ho
  simp only [List.mem_map] at ho
  obtain ⟨p, hp, rfl⟩ := ho
  rfl

theorem binarizeTrueStep_allPresent {A B : DataFrame} {p : String × String}
    (h : binarizeTrueStep A p = .ok B) (hA : allPresent A = true) :
    allPresent B = true := by
  obtain ⟨c, -, rfl⟩ := binarizeTrueStep_ok_inv h
  refine all_setCol hA ?_
  rw [List.all_eq_true]
  intro o ho
  unfold trueCells at ho
  simp only [List.mem_map] at ho
  obtain ⟨o0, ho0, rfl⟩ := ho
  rfl

theorem binarizeFalseStep_allPresent {A B : DataFrame} {p : String × Int}
    (h : binarizeFalseStep A p = .ok B) (hA : allPresent A = true) :
    allPresent B = true := by
  obtain ⟨c, -, rfl⟩ := binarizeFalseStep_ok_inv h
  refine all_setCol hA ?_
  rw [List.all_eq_true]
  intro o ho
  unfold falseCells at ho
  simp only [List.mem_map] at ho
  obtain ⟨o0, ho0, rfl⟩ := ho
  rfl

theorem binarizeFeatures_allPresent {X Y : DataFrame}
    (h : binarizeFeatures X = .ok Y) (hX : allPresent X = true) :
    allPresent Y = true := by
  unfold binarizeFeatures at h
  obtain ⟨T, hT, h⟩ := except_bind_ok h
  obtain ⟨F, hF, h⟩ := except_bind_ok h
  rw [binarizeTrue_eq] at hT
  obtain ⟨A1, hA1, hT⟩ := except_bind_ok hT
  obtain ⟨A2, hA2, hT⟩ := except_bind_ok hT
  rw [binarizeFalse_eq] at hF
  obtain ⟨B1, hB1, hF⟩ := except_bind_ok hF
  obtain ⟨B2, hB2, hF⟩ := except_bind_ok hF
  obtain ⟨B3, hB3, hF⟩ := except_bind_ok hF
  exact drop_allPresent h
    (binarizeFalseStep_allPresent hF
      (binarizeFalseStep_allPresent hB3
        (binarizeFalseStep_allPresent hB2
          (binarizeFalseStep_allPresent hB1
            (binarizeTrueStep_allPresent hT
              (binarizeTrueStep_allPresent hA2
                (binarizeTrueStep_allPresent hA1 hX)))))))

theorem applyStages_allPresent {X Z : DataFrame} (h : applyStages X = .ok Z)
    (hX : missingOnlyInFillCols X = true) : Z.hasMissing = false := by
  obtain ⟨X1, X2, X3, X4, h1, h2, h3, h4, h5⟩ := applyStages_ok_inv h
  exact hasMissing_eq_false_of_allPresent
    (binarizeFeatures_allPresent h5
      (transformDateSold_allPresent h4
        (drop_allPresent (show X2.drop cols_drop = .ok X3 from h3)
          (fillna_allPresent h2 (castTypes_allPresent h1 hX)))))

/-! ### The order on values and the sorted vocabularies -/

theorem charsLt_asymm : ∀ {as bs : List Char},
    charsLt as bs = true → charsLt bs as = false := by
  intro as
  induction as with
  | nil =>
    intro bs h
    cases bs
    · cases h
    · rfl
  | cons a as ih =>
    intro bs h
    cases bs with
    | nil => cases h
    | cons b bs =>
      unfold charsLt at h ⊢
      by_cases h1 : a.toNat < b.toNat
      · rw [if_neg (by omega), if_pos h1]
      · rw [if_neg h1] at h
        by_cases h2 : b.toNat < a.toNat
        · rw [if_pos h2] at h
          cases h
        · rw [if_neg h2] at h
          rw [if_neg h2, if_neg h1]
          exact ih h

theorem charsLt_co_trans : ∀ {as cs : List Char}, charsLt as cs = true →
    ∀ bs, charsLt as bs = true ∨ charsLt bs cs = true := by
  intro as
  induction as with
  | nil =>
    intro cs h bs
    cases cs with
    | nil => cases h
    | cons c cs =>
      cases bs with
      | nil => exact Or.inr rfl
      | cons b bs => exact Or.inl rfl
  | cons a as ih =>
    intro cs h bs
    cases cs with
    | nil => cases h
    | cons c cs =>
      unfold charsLt at h
      cases bs with
      | nil => exact Or.inr rfl
      | cons b bs =>
        by_cases h1 : a.toNat < c.toNat
        · by_cases h2 : a.toNat < b.toNat
          · exact Or.inl (by unfold charsLt; rw [if_pos h2])
          · have h3 : b.toNat < c.toNat := by omega
            exact Or.inr (by unfold charsLt; rw [if_pos h3])
        · rw [if_neg h1] at h
          by_cases h2 : c.toNat < a.toNat
          · rw [if_pos h2] at h
            cases h
          · rw [if_neg h2] at h
            by_cases h3 : a.toNat < b.toNat
            · exact Or.inl (by unfold charsLt; rw [if_pos h3])
            · by_cases h4 : b.toNat < a.toNat
              · have h5 : b.toNat < c.toNat := by omega
                exact Or.inr (by unfold charsLt; rw [if_pos h5])
              · rcases ih h bs with hl | hr
                · refine Or.inl ?_
                  unfold charsLt
                  rw [if_neg h3, if_neg h4]
                  exact hl
                · refine Or.inr ?_
                  unfold charsLt
                  rw [if_neg (show ¬ b.toNat < c.toNat by omega),
                    if_neg (show ¬ c.toNat < b.toNat by omega)]
                  exact hr

theorem strLeb_total (x y : String) : strLeb x y = true ∨ strLeb y x = true := by
  unfold strLeb
  cases hxy : charsLt y.data x.data
  · exact Or.inl rfl
  · rw [charsLt_asymm hxy]
    exact Or.inr rfl

theorem strLeb_trans {x y z : String} (h1 : strLeb x y = true)
    (h2 : strLeb y z = true) : strLeb x z = true := by
  unfold strLeb at h1 h2 ⊢
  cases hzx : charsLt z.data x.data
  · rfl
  · rcases charsLt_co_trans hzx y.data with hl | hr
    · rw [hl] at h2
      cases h2
    · rw [hr] at h1
      cases h1

theorem vle_total (a b : Value) : vle a b ∨ vle b a := by
  cases a <;> cases b <;>
    simp only [vle, Value.leb, Value.tag, decide_eq_true_eq] <;>
    first
      | exact Or.inl rfl
      | exact Or.inr rfl
      | exact le_total _ _
      | exact strLeb_total _ _
      | (rename_i x y; revert x y; decide)

theorem vle_trans (a b c : Value) (hab : vle a b) (hbc : vle b c) : vle a c := by
  cases a <;> cases b <;> cases c <;>
    simp only [vle, Value.leb, Value.tag, decide_eq_true_eq] at hab hbc ⊢ <;>
    first
      | rfl
      | omega
      | exact strLeb_trans hab hbc
      | (rename_i x y z; revert x y z; decide)

theorem sortedUnique_sorted (cells : List (Option Value)) :
    List.Sorted vle (sortedUnique cells) := by
  haveI : IsTotal Value vle := ⟨vle_total⟩
  haveI : IsTrans Value vle := ⟨vle_trans⟩
  exact List.sorted_insertionSort vle _

theorem sortedUnique_nodup (cells : List (Option Value)) :
    (sortedUnique cells).Nodup :=
  (List.perm_insertionSort vle _).nodup_iff.mpr (List.nodup_dedup _)

theorem mem_sortedUnique {cells : List (Option Value)} {v : Value} :
    v ∈ sortedUnique cells ↔ some v ∈ cells := by
  unfold sortedUnique
  rw [List.mem_insertionSort, List.mem_dedup, List.mem_filterMap]
  exact ⟨fun ⟨a, ha, e⟩ => by rw [show a = some v from e] at ha; exact ha,
    fun h => ⟨some v, h, rfl⟩⟩

/-! ### Lemmas about `fit_transform` -/

theorem fit_transform_ok_inv {s s' : ExtState} {X Y : DataFrame}
    (h : fit_transform s X = .ok (s', Y)) :
    transform X = .ok Y ∧
    s'.num_cols = (Y.cols.filter fun c => c.dtype == .number).map Col.name ∧
    s'.cat_cols = (Y.cols.filter fun c => !(c.dtype == .number)).map Col.name ∧
    s'.all_categories = s'.cat_cols.map (fun col => match Y.getCol col with
      | some c => sortedUnique c.cells
      | none => []) := by
  unfold fit_transform at h
  obtain ⟨Y0, hY0, h⟩ := except_bind_ok h
  cases h
  exact ⟨hY0, rfl, rfl, rfl⟩

theorem fit_transform_map_snd (s : ExtState) (X : DataFrame) :
    (fit_transform s X).map Prod.snd = transform X := by
  unfold fit_transform
  cases h : transform X <;> rfl

/-! ### The claims -/

/-- C5 counterexample: the two binarization rule sets have seven source
columns in total (three true-value rules plus four false-value rules), not
eight as the claim states. -/
theorem C5_counterexample :
    binarizeSourceCols.length = 7 ∧ ¬ binarizeSourceCols.length = 8 := by
  decide

/-- C5 (amended): whenever `transform` succeeds, the output table contains
none of the six fixed dropped column names, none of the seven source
columns of the two binarization rule sets, and neither `MoSold` nor
`YrSold`. -/
theorem C5_drop_completeness {X Y : DataFrame} (h : transform X = .ok Y) :
    ∀ m, m ∈ cols_drop ++ binarizeSourceCols ++ ["MoSold", "YrSold"] →
      Y.hasCol m = false := by
  obtain ⟨hA, -⟩ := transform_ok_inv h
  obtain ⟨X1, X2, X3, X4, h1, h2, h3, h4, h5⟩ := applyStages_ok_inv hA
  have hc3 := (dropColumns_props h3).2.1
  obtain ⟨-, -, -, -, -, -, -, -, hMo4, hYr4, g4⟩ := transformDateSold_props h4
  obtain ⟨-, -, -, -, -, -, -, -, -, -, -, -, -, -, -, -, -, -, -, -, -, -,
    hsrc, hpass⟩ := binarizeFeatures_props h5
  intro m hm
  simp only [cols_drop, binarizeSourceCols, binarize_features_by_true_value,
    binarize_features_by_false_value, List.map_cons, List.map_nil,
    List.mem_append, List.mem_cons, List.not_mem_nil, or_false] at hm
  rcases hm with ((rfl | rfl | rfl | rfl | rfl | rfl)
    | ((rfl | rfl | rfl) | (rfl | rfl | rfl | rfl))) | (rfl | rfl)
  · rw [(hpass "1stFlrSF" (by decide) (by decide)).2,
      (g4 "1stFlrSF" (by decide) (by decide) (by decide)).2, hc3,
      show cols_drop.contains "1stFlrSF" = true from by decide]
    simp
  · rw [(hpass "GarageArea" (by decide) (by decide)).2,
      (g4 "GarageArea" (by decide) (by decide) (by decide)).2, hc3,
      show cols_drop.contains "GarageArea" = true from by decide]
    simp
  · rw [(hpass "GarageYrBlt" (by decide) (by decide)).2,
      (g4 "GarageYrBlt" (by decide) (by decide) (by decide)).2, hc3,
      show cols_drop.contains "GarageYrBlt" = true from by decide]
    simp
  · rw [(hpass "TotRmsAbvGrd" (by decide) (by decide)).2,
      (g4 "TotRmsAbvGrd" (by decide) (by decide) (by decide)).2, hc3,
      show cols_drop.contains "TotRmsAbvGrd" = true from by decide]
    simp
  · rw [(hpass "Street" (by decide) (by decide)).2,
      (g4 "Street" (by decide) (by decide) (by decide)).2, hc3,
      show cols_drop.contains "Street" = true from by decide]
    simp
  · rw [(hpass "Utilities" (by decide) (by decide)).2,
      (g4 "Utilities" (by decide) (by decide) (by decide)).2, hc3,
      show cols_drop.contains "Utilities" = true from by decide]
    simp
  · exact hsrc "Condition2" (by decide)
  · exact hsrc "RoofMatl" (by decide)
  · exact hsrc "Heating" (by decide)
  · exact hsrc "LowQualFinSF" (by decide)
  · exact hsrc "3SsnPorch" (by decide)
  · exact hsrc "PoolArea" (by decide)
  · exact hsrc "MiscVal" (by decide)
  · rw [(hpass "MoSold" (by decide) (by decide)).2]
    exact hMo4
  · rw [(hpass "YrSold" (by decide) (by decide)).2]
    exact hYr4

/-- C5 witness: on the concrete valid input `Xc` the transformed output
lacks all dropped names. -/
theorem C5_drop_completeness_witness :
    transform Xc = .ok Yc ∧
    (∀ m, m ∈ cols_drop ++ binarizeSourceCols ++ ["MoSold", "YrSold"] →
      Yc.hasCol m = false) :=
  ⟨by decide, C5_drop_completeness (by decide : transform Xc = .ok Yc)⟩

/-- C6: the fill stage is idempotent: whenever `_fillna` succeeds, applying
it again to its own output changes nothing. -/
theorem C6_fillna_idempotent {X Y : DataFrame} (h : fillna X = .ok Y) :
    fillna Y = .ok Y := by
  have hdisj : ∀ a ∈ cols_fillna_None_str, ¬ a ∈ cols_fillna_0 := by decide
  unfold fillna at h
  obtain ⟨A, hA, h0⟩ := except_bind_ok h
  have hfill : ∀ (v : Value) (l : List (Option Value)),
      (l.map (fillCell v)).map (fillCell v) = l.map (fillCell v) := by
    intro v l
    rw [List.map_map]
    refine List.map_congr_left ?_
    intro o _
    show fillCell v (fillCell v o) = fillCell v o
    cases o <;> rfl
  have key : ∀ c' ∈ Y.cols,
      (if cols_fillna_None_str.contains c'.name then
        { c' with cells := c'.cells.map (fillCell (.str "None")) } else c') = c' ∧
      (if cols_fillna_0.contains c'.name then
        { c' with cells := c'.cells.map (fillCell (.int 0)) } else c') = c' := by
    obtain ⟨-, rfl⟩ := fillnaCols_ok_inv hA
    obtain ⟨-, rfl⟩ := fillnaCols_ok_inv h0
    intro c' hc'
    simp only [List.map_map, List.mem_map, Function.comp] at hc'
    obtain ⟨c0, hc0, rfl⟩ := hc'
    by_cases hN : c0.name ∈ cols_fillna_None_str
    · have h0m : ¬ c0.name ∈ cols_fillna_0 := hdisj c0.name hN
      constructor <;> simp [hN, h0m, hfill]
    · by_cases h0m : c0.name ∈ cols_fillna_0
      · constructor <;> simp [hN, h0m, hfill]
      · constructor <;> simp [hN, h0m]
  have hhc : ∀ m, Y.hasCol m = X.hasCol m := fun m => by
    rw [fillnaCols_hasCol h0, fillnaCols_hasCol hA]
  have gN : cols_fillna_None_str.all Y.hasCol = true := by
    have := (fillnaCols_ok_inv hA).1
    rw [List.all_eq_true] at this ⊢
    intro a ha
    rw [hhc]
    exact this a ha
  have g0 : cols_fillna_0.all Y.hasCol = true := by
    have := (fillnaCols_ok_inv h0).1
    rw [List.all_eq_true] at this ⊢
    intro a ha
    rw [hhc, ← fillnaCols_hasCol hA a]
    exact this a ha
  have e1 : fillnaCols Y cols_fillna_None_str (.str "None") = .ok Y := by
    rw [fillnaCols_ok_of_all gN]
    have hmap : Y.cols.map (fun c => if cols_fillna_None_str.contains c.name then
        { c with cells := c.cells.map (fillCell (Value.str "None")) } else c) = Y.cols :=
      (List.map_congr_left (fun c hc => (key c hc).1)).trans (List.map_id _)
    rw [hmap]
  have e2 : fillnaCols Y cols_fillna_0 (.int 0) = .ok Y := by
    rw [fillnaCols_ok_of_all g0]
    have hmap : Y.cols.map (fun c => if cols_fillna_0.contains c.name then
        { c with cells := c.cells.map (fillCell (Value.int 0)) } else c) = Y.cols :=
      (List.map_congr_left (fun c hc => (key c hc).2)).trans (List.map_id _)
    rw [hmap]
  unfold fillna
  rw [e1, except_ok_bind, e2]

/-- C6 witness: on a concrete input with a missing `MSZoning` cell, the fill
stage succeeds and is a no-op on its own output. -/
theorem C6_fillna_idempotent_witness :
    fillna Xc6 = .ok Yc6 ∧ fillna Yc6 = .ok Yc6 :=
  ⟨by decide, C6_fillna_idempotent (by decide : fillna Xc6 = .ok Yc6)⟩

/-- C8: `transform` never mutates the pipeline state (it reads only the
class-level configuration), its result depends only on the input table, and
it operates on a copy of the input, which equals the input itself. -/
theorem C8_transform_pure (s : ExtState) (X : DataFrame) :
    transformMethod s X = (s, transform X) ∧
    (transformMethod s X).1.num_cols = s.num_cols ∧
    (transformMethod s X).1.cat_cols = s.cat_cols ∧
    (transformMethod s X).1.all_categories = s.all_categories ∧
    (∀ s', (transformMethod s' X).2 = (transformMethod s X).2) ∧
    DataFrame.copy X = X :=
  ⟨rfl, rfl, rfl, rfl, fun _ => rfl, DataFrame.copy_eq X⟩

/-- C10: `fit_transform` returns exactly the table `transform` returns on
the same input (and the same error when `transform` fails); the two differ only
in the recorded role metadata. -/
theorem C10_fit_returns_transform (s : ExtState) (X : DataFrame) :
    (fit_transform s X).map Prod.snd = transform X :=
  fit_transform_map_snd s X

/-- C2: the date-encoding stage replaces `MoSold`/`YrSold` by a
`MonthNumSold` column equal on every row to `(YrSold - 2000) * 12 + MoSold`;
the ordinal takes the values 101, 13, 12 and 1 at (5,2008), (1,2001),
(12,2000) and (1,2000), and its order agrees with chronological order. -/
theorem C2_date_encoding {X : DataFrame} {cm cy : Col} {ps : List (Int × Int)}
    (hm : X.getCol "MoSold" = some cm) (hy : X.getCol "YrSold" = some cy)
    (hp : mapE (fun p => parseDate p.1 p.2) (cm.cells.zip cy.cells) = .ok ps) :
    (∃ Y cMonth, transformDateSold X = .ok Y ∧
      Y.getCol "MonthNumSold" = some cMonth ∧
      Y.hasCol "MoSold" = false ∧ Y.hasCol "YrSold" = false ∧
      ∀ i m yr, cm.cells.get? i = some (some (.int m)) →
        cy.cells.get? i = some (some (.int yr)) →
        cMonth.cells.get? i = some (some (.int ((yr - 2000) * 12 + m)))) ∧
    get_months_after_start_year 2008 5 = 101 ∧
    get_months_after_start_year 2001 1 = 13 ∧
    get_months_after_start_year 2000 12 = 12 ∧
    get_months_after_start_year 2000 1 = 1 ∧
    (∀ m1 y1 m2 y2 : Int, 1 ≤ m1 → m1 ≤ 12 → 1 ≤ m2 → m2 ≤ 12 →
      (get_months_after_start_year y1 m1 < get_months_after_start_year y2 m2 ↔
        (y1 < y2 ∨ (y1 = y2 ∧ m1 < m2)))) := by
  refine ⟨?_, by decide, by decide, by decide, by decide, ?_⟩
  · obtain ⟨Y, hY⟩ := transformDateSold_isOk hm hy hp
    obtain ⟨cm', cy', ps', hm', hy', hp', -, hMonth, hMo, hYr, -⟩ :=
      transformDateSold_props hY
    rw [hm] at hm'
    cases hm'
    rw [hy] at hy'
    cases hy'
    rw [hp] at hp'
    cases hp'
    refine ⟨Y, _, hY, hMonth, hMo, hYr, ?_⟩
    intro i m yr h1 h2
    have hzip : (cm.cells.zip cy.cells).get? i = some (some (.int m), some (.int yr)) :=
      (List.get?_zip_eq_some _ _ _ _).mpr ⟨h1, h2⟩
    obtain ⟨b, hb, hps⟩ := mapE_ok_get? hp hzip
    rw [parseDate_ok_inv hb] at hps
    rw [List.get?_map, hps]
    rfl
  · intro m1 y1 m2 y2 a1 a2 a3 a4
    unfold get_months_after_start_year
    constructor
    · intro hlt
      rcases lt_trichotomy y1 y2 with hy | hy | hy
      · exact Or.inl hy
      · exact Or.inr ⟨hy, by omega⟩
      · omega
    · intro hd
      rcases hd with hy | ⟨rfl, hm⟩
      · omega
      · omega

/-- C2 witness: on the concrete input `Xc` (sold May 2008) the date stage
succeeds and the encoded ordinal is 101. -/
theorem C2_date_encoding_witness :
    (Xc.getCol "MoSold" = some cmc ∧ Xc.getCol "YrSold" = some cyc ∧
      mapE (fun p => parseDate p.1 p.2) (cmc.cells.zip cyc.cells) = .ok [(5, 2008)]) ∧
    (∃ Y cMonth, transformDateSold Xc = .ok Y ∧
      Y.getCol "MonthNumSold" = some cMonth ∧
      Y.hasCol "MoSold" = false ∧ Y.hasCol "YrSold" = false ∧
      ∀ i m yr, cmc.cells.get? i = some (some (.int m)) →
        cyc.cells.get? i = some (some (.int yr)) →
        cMonth.cells.get? i = some (some (.int ((yr - 2000) * 12 + m)))) ∧
    get_months_after_start_year 2008 5 = 101 ∧
    get_months_after_start_year 2001 1 = 13 ∧
    get_months_after_start_year 2000 12 = 12 ∧
    get_months_after_start_year 2000 1 = 1 ∧
    (∀ m1 y1 m2 y2 : Int, 1 ≤ m1 → m1 ≤ 12 → 1 ≤ m2 → m2 ≤ 12 →
      (get_months_after_start_year y1 m1 < get_months_after_start_year y2 m2 ↔
        (y1 < y2 ∨ (y1 = y2 ∧ m1 < m2)))) :=
  ⟨⟨by decide, by decide, by decide⟩,
    C2_date_encoding (by decide) (by decide)
      (by decide : mapE (fun p => parseDate p.1 p.2) (cmc.cells.zip cyc.cells)
        = .ok [(5, 2008)])⟩

/-- C3: the binarization stage creates, for each true-value rule, a boolean
column `{col}_is_{v}` whose cell is true exactly when the original cell
equals the sentinel, and for each false-value rule a boolean column
`{col}_not_0` whose cell is true exactly when the original cell differs
from 0. -/
theorem C3_binarization {X Y : DataFrame} (h : binarizeFeatures X = .ok Y) :
    ∃ c1 c2 c3 d1 d2 d3 d4,
      X.getCol "Condition2" = some c1 ∧ X.getCol "RoofMatl" = some c2 ∧
      X.getCol "Heating" = some c3 ∧ X.getCol "LowQualFinSF" = some d1 ∧
      X.getCol "3SsnPorch" = some d2 ∧ X.getCol "PoolArea" = some d3 ∧
      X.getCol "MiscVal" = some d4 ∧
      (∃ cb, Y.getCol "Condition2_is_Norm" = some cb ∧ cb.dtype = .boolean ∧
        ∀ i o, c1.cells.get? i = some o →
          cb.cells.get? i = some (some (.bool (decide (o = some (.str "Norm")))))) ∧
      (∃ cb, Y.getCol "RoofMatl_is_CompShg" = some cb ∧ cb.dtype = .boolean ∧
        ∀ i o, c2.cells.get? i = some o →
          cb.cells.get? i = some (some (.bool (decide (o = some (.str "CompShg")))))) ∧
      (∃ cb, Y.getCol "Heating_is_GasA" = some cb ∧ cb.dtype = .boolean ∧
        ∀ i o, c3.cells.get? i = some o →
          cb.cells.get? i = some (some (.bool (decide (o = some (.str "GasA")))))) ∧
      (∃ cb, Y.getCol "LowQualFinSF_not_0" = some cb ∧ cb.dtype = .boolean ∧
        ∀ i o, d1.cells.get? i = some o →
          cb.cells.get? i = some (some (.bool (!decide (o = some (.int 0)))))) ∧
      (∃ cb, Y.getCol "3SsnPorch_not_0" = some cb ∧ cb.dtype = .boolean ∧
        ∀ i o, d2.cells.get? i = some o →
          cb.cells.get? i = some (some (.bool (!decide (o = some (.int 0)))))) ∧
      (∃ cb, Y.getCol "PoolArea_not_0" = some cb ∧ cb.dtype = .boolean ∧
        ∀ i o, d3.cells.get? i = some o →
          cb.cells.get? i = some (some (.bool (!decide (o = some (.int 0)))))) ∧
      (∃ cb, Y.getCol "MiscVal_not_0" = some cb ∧ cb.dtype = .boolean ∧
        ∀ i o, d4.cells.get? i = some o →
          cb.cells.get? i = some (some (.bool (!decide (o = some (.int 0)))))) := by
  obtain ⟨c1, c2, c3, d1, d2, d3, d4, gc1, gc2, gc3, gd1, gd2, gd3, gd4, -,
    n1, n2, n3, n4, n5, n6, n7, -, -⟩ := binarizeFeatures_props h
  have tcell : ∀ (v : String) (cells : List (Option Value)) (i : Nat) (o : Option Value),
      cells.get? i = some o →
      (trueCells v cells).get? i = some (some (.bool (decide (o = some (.str v))))) := by
    intro v cells i o ho
    unfold trueCells
    rw [List.get?_map, ho]
    rfl
  have fcell : ∀ (n : Int) (cells : List (Option Value)) (i : Nat) (o : Option Value),
      cells.get? i = some o →
      (falseCells n cells).get? i = some (some (.bool (!decide (o = some (.int n))))) := by
    intro n cells i o ho
    unfold falseCells
    rw [List.get?_map, ho]
    rfl
  exact ⟨c1, c2, c3, d1, d2, d3, d4, gc1, gc2, gc3, gd1, gd2, gd3, gd4,
    ⟨_, n1, rfl, fun i o ho => tcell _ _ i o ho⟩,
    ⟨_, n2, rfl, fun i o ho => tcell _ _ i o ho⟩,
    ⟨_, n3, rfl, fun i o ho => tcell _ _ i o ho⟩,
    ⟨_, n4, rfl, fun i o ho => fcell _ _ i o ho⟩,
    ⟨_, n5, rfl, fun i o ho => fcell _ _ i o ho⟩,
    ⟨_, n6, rfl, fun i o ho => fcell _ _ i o ho⟩,
    ⟨_, n7, rfl, fun i o ho => fcell _ _ i o ho⟩⟩

/-- C3 witness: the binarization stage on the concrete input `Xc`. -/
theorem C3_binarization_witness :
    binarizeFeatures Xc = .ok Zb ∧
    (∃ c1 c2 c3 d1 d2 d3 d4,
      Xc.getCol "Condition2" = some c1 ∧ Xc.getCol "RoofMatl" = some c2 ∧
      Xc.getCol "Heating" = some c3 ∧ Xc.getCol "LowQualFinSF" = some d1 ∧
      Xc.getCol "3SsnPorch" = some d2 ∧ Xc.getCol "PoolArea" = some d3 ∧
      Xc.getCol "MiscVal" = some d4 ∧
      (∃ cb, Zb.getCol "Condition2_is_Norm" = some cb ∧ cb.dtype = .boolean ∧
        ∀ i o, c1.cells.get? i = some o →
          cb.cells.get? i = some (some (.bool (decide (o = some (.str "Norm")))))) ∧
      (∃ cb, Zb.getCol "RoofMatl_is_CompShg" = some cb ∧ cb.dtype = .boolean ∧
        ∀ i o, c2.cells.get? i = some o →
          cb.cells.get? i = some (some (.bool (decide (o = some (.str "CompShg")))))) ∧
      (∃ cb, Zb.getCol "Heating_is_GasA" = some cb ∧ cb.dtype = .boolean ∧
        ∀ i o, c3.cells.get? i = some o →
          cb.cells.get? i = some (some (.bool (decide (o = some (.str "GasA")))))) ∧
      (∃ cb, Zb.getCol "LowQualFinSF_not_0" = some cb ∧ cb.dtype = .boolean ∧
        ∀ i o, d1.cells.get? i = some o →
          cb.cells.get? i = some (some (.bool (!decide (o = some (.int 0)))))) ∧
      (∃ cb, Zb.getCol "3SsnPorch_not_0" = some cb ∧ cb.dtype = .boolean ∧
        ∀ i o, d2.cells.get? i = some o →
          cb.cells.get? i = some (some (.bool (!decide (o = some (.int 0)))))) ∧
      (∃ cb, Zb.getCol "PoolArea_not_0" = some cb ∧ cb.dtype = .boolean ∧
        ∀ i o, d3.cells.get? i = some o →
          cb.cells.get? i = some (some (.bool (!decide (o = some (.int 0)))))) ∧
      (∃ cb, Zb.getCol "MiscVal_not_0" = some cb ∧ cb.dtype = .boolean ∧
        ∀ i o, d4.cells.get? i = some o →
          cb.cells.get? i = some (some (.bool (!decide (o = some (.int 0))))))) :=
  ⟨by decide, C3_binarization (by decide : binarizeFeatures Xc = .ok Zb)⟩

/-- C1: on a valid input, `transform` either returns a table with no
missing cell, or raises the validation error that enumerates exactly the
row ids of the rows and the names of the columns still containing missing
cells; it never returns a table with missing cells. -/
theorem C1_completeness (X : DataFrame) (hv : validInput X = true) :
    (∀ Y, transform X = .ok Y → Y.hasMissing = false) ∧
    ∃ Z, applyStages X = .ok Z ∧ Z.rowIds = X.rowIds ∧
      transform X = (if Z.hasMissing = true
        then .error (.valueError (nanRowIds Z) (nanColNames Z))
        else .ok Z) := by
  constructor
  · intro Y hY
    exact (transform_ok_inv hY).2
  · obtain ⟨Z, hZ⟩ := applyStages_isOk hv
    refine ⟨Z, hZ, applyStages_rowIds hZ, ?_⟩
    rw [transform_eq, hZ, except_ok_bind]

/-- C1 witness: the concrete valid input `Xc`. -/
theorem C1_completeness_witness :
    validInput Xc = true ∧
    ((∀ Y, transform Xc = .ok Y → Y.hasMissing = false) ∧
      ∃ Z, applyStages Xc = .ok Z ∧ Z.rowIds = Xc.rowIds ∧
        transform Xc = (if Z.hasMissing = true
          then .error (.valueError (nanRowIds Z) (nanColNames Z))
          else .ok Z)) :=
  ⟨by decide, C1_completeness Xc (by decide)⟩

/-- C4: after a successful `fit_transform`, the numeric feature names are
exactly the names of the numeric-dtype columns of the transformed output
(in column order), the categorical feature names are the remaining columns,
and, aligned with the categorical names, each vocabulary is a sorted
duplicate-free list containing exactly the values observed in that column
of the transformed output. -/
theorem C4_fit_metadata {s s' : ExtState} {X Y : DataFrame}
    (h : fit_transform s X = .ok (s', Y)) :
    transform X = .ok Y ∧
    s'.num_cols = (Y.cols.filter fun c => c.dtype == .number).map Col.name ∧
    s'.cat_cols = (Y.cols.filter fun c => !(c.dtype == .number)).map Col.name ∧
    s'.all_categories.length = s'.cat_cols.length ∧
    (∀ i col c, s'.cat_cols.get? i = some col → Y.getCol col = some c →
      ∃ vs, s'.all_categories.get? i = some vs ∧
        List.Sorted vle vs ∧ vs.Nodup ∧ ∀ v, (v ∈ vs ↔ some v ∈ c.cells)) := by
  obtain ⟨ht, hnum, hcat, hcats⟩ := fit_transform_ok_inv h
  refine ⟨ht, hnum, hcat, ?_, ?_⟩
  · rw [hcats, List.length_map]
  · intro i col c hi hc
    refine ⟨sortedUnique c.cells, ?_, sortedUnique_sorted _, sortedUnique_nodup _,
      fun v => mem_sortedUnique⟩
    rw [hcats, List.get?_map, hi, Option.map_some']
    rw [hc]

/-- C4 witness: fitting on the concrete valid input `Xc`. -/
theorem C4_fit_metadata_witness :
    fit_transform initState Xc = .ok (s1c, Yc) ∧
    (transform Xc = .ok Yc ∧
      s1c.num_cols = (Yc.cols.filter fun c => c.dtype == .number).map Col.name ∧
      s1c.cat_cols = (Yc.cols.filter fun c => !(c.dtype == .number)).map Col.name ∧
      s1c.all_categories.length = s1c.cat_cols.length ∧
      (∀ i col c, s1c.cat_cols.get? i = some col → Yc.getCol col = some c →
        ∃ vs, s1c.all_categories.get? i = some vs ∧
          List.Sorted vle vs ∧ vs.Nodup ∧ ∀ v, (v ∈ vs ↔ some v ∈ c.cells))) :=
  ⟨by decide, C4_fit_metadata (by decide : fit_transform initState Xc = .ok (s1c, Yc))⟩

/-- C7 counterexample: an input column named `Condition2_is_Norm` (a name
that appears in no configuration list) is overwritten by the binarization
stage, so it is not passed through unchanged. -/
theorem C7_counterexample :
    ¬ "Condition2_is_Norm" ∈ requiredCols ∧
    Xc7.getCol "Condition2_is_Norm"
      = some ⟨"Condition2_is_Norm", .number, [some (.int 5)]⟩ ∧
    transform Xc7 = .ok Yc7 ∧
    ¬ Yc7.getCol "Condition2_is_Norm" = Xc7.getCol "Condition2_is_Norm" :=
  ⟨by decide, by decide, by decide, by decide⟩

/-- C7 (amended): whenever `transform` succeeds, the output has the same
row ids as the input, and every input column that is named in no
configuration list (cast, fill, drop, date, binarize) and that is not one
of the generated output column names (`MonthNumSold` and the seven
binarization columns) is present in the output with name, dtype and every
cell unchanged. -/
theorem C7_pass_through {X Y : DataFrame} (h : transform X = .ok Y) :
    Y.rowIds = X.rowIds ∧
    ∀ m, ¬ m ∈ requiredCols → ¬ m = "MonthNumSold" → ¬ m ∈ binarizeNewCols →
      Y.getCol m = X.getCol m ∧ Y.hasCol m = X.hasCol m := by
  obtain ⟨hA, -⟩ := transform_ok_inv h
  refine ⟨applyStages_rowIds hA, ?_⟩
  intro m hreq hmn hnew
  obtain ⟨X1, X2, X3, X4, h1, h2, h3, h4, h5⟩ := applyStages_ok_inv hA
  have hsubN : ∀ a ∈ cols_fillna_None_str, a ∈ requiredCols := by decide
  have hsub0 : ∀ a ∈ cols_fillna_0, a ∈ requiredCols := by decide
  have hsubD : ∀ a ∈ cols_drop, a ∈ requiredCols := by decide
  have hsubB : ∀ a ∈ binarizeSourceCols, a ∈ requiredCols := by decide
  have hMSS : ¬ m = "MSSubClass" := fun e => hreq (by rw [e]; decide)
  have hMo : ¬ m = "MoSold" := fun e => hreq (by rw [e]; decide)
  have hYr : ¬ m = "YrSold" := fun e => hreq (by rw [e]; decide)
  have hN : ¬ m ∈ cols_fillna_None_str := fun hx => hreq (hsubN m hx)
  have h0 : ¬ m ∈ cols_fillna_0 := fun hx => hreq (hsub0 m hx)
  have hD : ¬ m ∈ cols_drop := fun hx => hreq (hsubD m hx)
  have hB : ¬ m ∈ binarizeSourceCols := fun hx => hreq (hsubB m hx)
  obtain ⟨-, -, -, -, -, -, -, -, -, -, -, -, -, -, -, -, -, -, -, -, -, -,
    -, hpass⟩ := binarizeFeatures_props h5
  obtain ⟨-, -, -, -, -, -, -, -, -, -, g4⟩ := transformDateSold_props h4
  have e5 := hpass m hB hnew
  have e4 := g4 m hMo hYr hmn
  have e3g := (dropColumns_props h3).2.2 m hD
  have e3h : X3.hasCol m = X2.hasCol m := by
    rw [(dropColumns_props h3).2.1,
      show cols_drop.contains m = false from by simpa using hD]
    simp
  have e2g := (fillna_props h2).2.2 m hN h0
  have e2h := (fillna_props h2).2.1 m
  have e1g := (castTypes_props h1).2.2 m hMSS
  have e1h := (castTypes_props h1).2.1 m
  constructor
  · rw [e5.1, e4.1, e3g, e2g, e1g]
  · rw [e5.2, e4.2, e3h, e2h, e1h]

/-- C7 witness: pass-through on the concrete valid input `Xc`. -/
theorem C7_pass_through_witness :
    transform Xc = .ok Yc ∧
    (Yc.rowIds = Xc.rowIds ∧
      ∀ m, ¬ m ∈ requiredCols → ¬ m = "MonthNumSold" → ¬ m ∈ binarizeNewCols →
        Yc.getCol m = Xc.getCol m ∧ Yc.hasCol m = Xc.hasCol m) :=
  ⟨by decide, C7_pass_through (by decide : transform Xc = .ok Yc)⟩

/-- C9: after fitting on a training set whose `MSZoning` vocabulary is
frozen as ["A","B"], a transform call on a valid held-out input whose
`MSZoning` cell holds the unseen value "C" (and whose missing values, if
any, lie in fill columns) succeeds, passes the "C" through unflagged, and
leaves the pipeline state untouched. -/
theorem C9_unseen_category {s0 s1 : ExtState} {Xtr Ytr Xte : DataFrame}
    {c0 : Col} {i j : Nat}
    (hfit : fit_transform s0 Xtr = .ok (s1, Ytr))
    (hvocA : s1.cat_cols.get? j = some "MSZoning")
    (hvocB : s1.all_categories.get? j = some [Value.str "A", Value.str "B"])
    (hv : validInput Xte = true)
    (hgood : missingOnlyInFillCols Xte = true)
    (hz : Xte.getCol "MSZoning" = some c0)
    (hcell : c0.cells.get? i = some (some (.str "C"))) :
    ∃ Yte c1, transform Xte = .ok Yte ∧ Yte.getCol "MSZoning" = some c1 ∧
      c1.cells.get? i = some (some (.str "C")) ∧
      (transformMethod s1 Xte).1 = s1 := by
  obtain ⟨Z, hZ⟩ := applyStages_isOk hv
  have hnomiss : Z.hasMissing = false := applyStages_allPresent hZ hgood
  have htr : transform Xte = .ok Z := by
    rw [transform_eq, hZ, except_ok_bind, hnomiss]
    rfl
  obtain ⟨X1, X2, X3, X4, h1, h2, h3, h4, h5⟩ := applyStages_ok_inv hZ
  have hname : c0.name = "MSZoning" := getCol_name hz
  have g1 : X1.getCol "MSZoning" = some c0 := by
    rw [(castTypes_props h1).2.2 _ (by decide)]
    exact hz
  have h2' := h2
  unfold fillna at h2'
  obtain ⟨A, hA, h0⟩ := except_bind_ok h2'
  have gA : A.getCol "MSZoning"
      = some ⟨c0.name, c0.dtype, c0.cells.map (fillCell (.str "None"))⟩ := by
    rw [fillnaCols_getCol hA, g1, Option.map_some',
      if_pos (show cols_fillna_None_str.contains c0.name = true from by
        rw [hname]; decide)]
  have gX2 : X2.getCol "MSZoning"
      = some ⟨c0.name, c0.dtype, c0.cells.map (fillCell (.str "None"))⟩ := by
    rw [fillnaCols_getCol h0, gA, Option.map_some',
      if_neg (show ¬ cols_fillna_0.contains
        (⟨c0.name, c0.dtype, c0.cells.map (fillCell (.str "None"))⟩ : Col).name
          = true from by
        show ¬ cols_fillna_0.contains c0.name = true
        rw [hname]; decide)]
  have g3 : X3.getCol "MSZoning"
      = some ⟨c0.name, c0.dtype, c0.cells.map (fillCell (.str "None"))⟩ := by
    rw [(dropColumns_props h3).2.2 _ (by decide)]
    exact gX2
  obtain ⟨-, -, -, -, -, -, -, -, -, -, g4⟩ := transformDateSold_props h4
  obtain ⟨-, -, -, -, -, -, -, -, -, -, -, -, -, -, -, -, -, -, -, -, -, -,
    -, hpass⟩ := binarizeFeatures_props h5
  have g4' : X4.getCol "MSZoning"
      = some ⟨c0.name, c0.dtype, c0.cells.map (fillCell (.str "None"))⟩ := by
    rw [(g4 "MSZoning" (by decide) (by decide) (by decide)).1]
    exact g3
  have g5 : Z.getCol "MSZoning"
      = some ⟨c0.name, c0.dtype, c0.cells.map (fillCell (.str "None"))⟩ := by
    rw [(hpass "MSZoning" (by decide) (by decide)).1]
    exact g4'
  refine ⟨Z, ⟨c0.name, c0.dtype, c0.cells.map (fillCell (.str "None"))⟩,
    htr, g5, ?_, rfl⟩
  show (c0.cells.map (fillCell (.str "None"))).get? i = some (some (.str "C"))
  rw [List.get?_map, hcell]
  rfl

/-- C9 witness: fit on `Xtr9` (vocabulary ["A","B"] for `MSZoning`), then
transform the held-out `Xte9` carrying the unseen value "C". -/
theorem C9_unseen_category_witness :
    (fit_transform initState Xtr9 = .ok (s19, Ytr9) ∧
      s19.cat_cols.get? 22 = some "MSZoning" ∧
      s19.all_categories.get? 22 = some [Value.str "A", Value.str "B"] ∧
      validInput Xte9 = true ∧ missingOnlyInFillCols Xte9 = true ∧
      Xte9.getCol "MSZoning" = some c09 ∧
      c09.cells.get? 0 = some (some (.str "C"))) ∧
    (∃ Yte c1, transform Xte9 = .ok Yte ∧ Yte.getCol "MSZoning" = some c1 ∧
      c1.cells.get? 0 = some (some (.str "C")) ∧
      (transformMethod s19 Xte9).1 = s19) :=
  ⟨⟨by decide, by decide, by decide, by decide, by decide, by decide, by decide⟩,
    C9_unseen_category
      (by decide : fit_transform initState Xtr9 = .ok (s19, Ytr9))
      (by decide : s19.cat_cols.get? 22 = some "MSZoning")
      (by decide : s19.all_categories.get? 22 = some [Value.str "A", Value.str "B"])
      (by decide : validInput Xte9 = true)
      (by decide : missingOnlyInFillCols Xte9 = true)
      (by decide : Xte9.getCol "MSZoning" = some c09)
      (by decide : c09.cells.get? 0 = some (some (.str "C")))⟩

end Housing
